import Mathlib

/-!
Verification development for the docs-module-extractor pipeline
(crawler.py, analyzer.py, output_generator.py, utils.py).

Python strings are modelled as `List Char` (ASCII fidelity: the source
operates on documentation text and URLs; `str.lower`, `str.isspace`,
`str.split` are modelled by their ASCII behaviour).  Python floats in the
confidence scorer are modelled as rationals: the scorer only adds the
decimal literals 0.5, 0.2, 0.1 and takes a minimum, and the claims are
about that additive structure and the resulting bounds.

External collaborators (aiohttp fetching, BeautifulSoup parsing,
`urllib.parse.urljoin`, the Redis cache, sklearn similarity) are modelled
as oracle functions / nondeterministic outcomes; everything implemented in
the repository itself (utils.normalize_url, the analyzer heuristics, the
crawl recursion's state handling, output_generator.generate_json) is
translated directly from the source.
-/

abbrev Str := List Char

/-! ### utils.py: URL canonicalisation

`normalize_url` calls `urllib.parse.urlparse`.  We embed the core of
CPython's `urlsplit`/`urlparse` (scheme split, netloc split, fragment and
query removal, params removal), for inputs without tab/newline/control
characters and without IPv6 brackets (the library raises on unbalanced
brackets; no claim exercises such inputs). -/

def schemeChar (c : Char) : Bool :=
  c.isAlpha || c.isDigit || c == '+' || c == '-' || c == '.'

def lowerStr (s : Str) : Str := s.map Char.toLower

/-- CPython urlsplit scheme recognition: a ':' at position i > 0, first
character an ASCII letter, all characters before the ':' scheme chars.
Returns (scheme lowercased, rest after the colon); otherwise ([], url). -/
def splitScheme (u : Str) : Str × Str :=
  match u.findIdx? (fun c => c == ':') with
  | some i =>
    if 0 < i ∧ (u.take i).all schemeChar ∧ (u.headD ' ').isAlpha then
      (lowerStr (u.take i), u.drop (i + 1))
    else ([], u)
  | none => ([], u)

def netlocEnd (c : Char) : Bool := c == '/' || c == '?' || c == '#'

/-- CPython urlsplit netloc recognition: only when the remainder starts
with "//"; the netloc runs to the first of '/', '?', '#'. -/
def splitNetloc (u : Str) : Str × Str :=
  match u with
  | '/' :: '/' :: rest =>
    (rest.takeWhile (fun c => !netlocEnd c), rest.dropWhile (fun c => !netlocEnd c))
  | _ => ([], u)

/-- Drop the fragment (everything from the first '#'). -/
def dropFrag (u : Str) : Str := u.takeWhile (fun c => !(c == '#'))

/-- Drop the query (everything from the first '?'), after the fragment. -/
def dropQuery (u : Str) : Str := u.takeWhile (fun c => !(c == '?'))

/-- CPython `_splitparams`: if the path contains '/', cut at the first ';'
at-or-after the last '/'; otherwise at the first ';'.  Returns the path
with the params removed. -/
def stripParams (p : Str) : Str :=
  if p.contains '/' then
    let k := (p.reverse.findIdx? (fun c => c == '/')).getD 0
    let j := p.length - 1 - k
    match (p.drop j).findIdx? (fun c => c == ';') with
    | some m => p.take (j + m)
    | none => p
  else
    match p.findIdx? (fun c => c == ';') with
    | some m => p.take m
    | none => p

/-- `urllib.parse.urlparse(u)` restricted to the components `normalize_url`
reads: (scheme, netloc, path). -/
def parseURL (u : Str) : Str × Str × Str :=
  let sr := splitScheme u
  let nr := splitNetloc sr.2
  (sr.1, nr.1, stripParams (dropQuery (dropFrag nr.2)))

/-- Python `str.rstrip('/')`. -/
def rstripSlash (l : Str) : Str :=
  (l.reverse.dropWhile (fun c => c == '/')).reverse

/-- utils.normalize_url with no base URL argument (the only way the
crawler calls it, and the form claim C10 is about):
`f"{scheme}://{netloc}{path}".rstrip('/')`. -/
def normalize_url (u : Str) : Str :=
  let p := parseURL u
  rstripSlash (p.1 ++ [':', '/', '/'] ++ p.2.1 ++ p.2.2)

/-- utils.extract_domain: `urlparse(url).netloc`. -/
def extract_domain (u : Str) : Str := (parseURL u).2.1

/-- crawler.AsyncCrawler.is_internal_link:
`parsed.netloc == base_domain or parsed.netloc == ""`. -/
def is_internal_link (u : Str) (base : Str) : Bool :=
  (parseURL u).2.1 == base || (parseURL u).2.1 == ([] : Str)

example : normalize_url "http://a.com/x/".data = "http://a.com/x".data := by decide
example : normalize_url "http://a.com/x?q=1#f".data = "http://a.com/x".data := by decide
example : normalize_url "a.com/x".data = "://a.com/x".data := by decide
example : normalize_url (normalize_url "a.com/x".data) = "://://a.com/x".data := by decide
example : extract_domain "http://a.com/x/".data = "a.com".data := by decide

/-! ### analyzer.py: sentence heuristics, descriptions and confidence -/

/-- Python `str.split()` with no argument: split on whitespace runs,
dropping empty pieces.  `acc` carries the current word reversed. -/
def splitWsAux : Str → Str → List Str
  | [], acc => if acc.isEmpty then [] else [acc.reverse]
  | c :: cs, acc =>
    if c.isWhitespace then
      if acc.isEmpty then splitWsAux cs [] else acc.reverse :: splitWsAux cs []
    else splitWsAux cs (c :: acc)

def splitWs (s : Str) : List Str := splitWsAux s []

def sentEnd (c : Char) : Bool := c == '.' || c == '!' || c == '?'

/-- `re.split(r'(?<=[.!?])\s+', text)`: a whitespace run whose first
character is preceded by '.', '!' or '?' separates two parts and is
consumed whole.  `acc` carries the current part reversed, so its head is
the character immediately preceding the scanner; `skip = true` while the
separating whitespace run is being consumed (then `acc = []`). -/
def reSplitAux : Str → Str → Bool → List Str
  | [], acc, _ => [acc.reverse]
  | c :: cs, acc, true =>
    if c.isWhitespace then reSplitAux cs acc true
    else reSplitAux cs (c :: acc) false
  | c :: cs, acc, false =>
    if c.isWhitespace && sentEnd (acc.headD ' ') then
      acc.reverse :: reSplitAux cs [] true
    else reSplitAux cs (c :: acc) false

def reSplit (s : Str) : List Str := reSplitAux s [] false

/-- Python's substring test `pat in s`. -/
def containsSeg (pat : Str) : Str → Bool
  | [] => pat.isEmpty
  | c :: tail => pat.isPrefixOf (c :: tail) || containsSeg pat tail

/-- `len(set(a) & set(b))` for word lists. -/
def interCard (a b : List Str) : Nat :=
  (a.dedup.filter (fun w => w ∈ b)).length

/-- ModuleAnalyzer.extract_relevant_sentences: a sentence is relevant when
the lowercased topic occurs as a substring, or it shares at least two
words with the topic; the first five relevant sentences are returned. -/
def extract_relevant_sentences (topic text : Str) : List Str :=
  let sentences := reSplit text
  let topicWords := splitWs (lowerStr topic)
  (sentences.filter (fun s =>
    containsSeg (lowerStr topic) (lowerStr s)
      || decide (2 ≤ interCard topicWords (splitWs (lowerStr s))))).take 5

/-- ModuleAnalyzer.generate_description_algorithmic.  Note that the
truncation `[:500]` applies to the joined sentences only; the
`f"{name}: "` prefix is concatenated afterwards, and the templated
fallback is not truncated at all. -/
def generate_description_algorithmic (name content context : Str) : Str :=
  let s0 := extract_relevant_sentences name content
  let s := if s0.isEmpty then extract_relevant_sentences name context else s0
  if s.isEmpty then "Module related to ".data ++ name ++ " functionality.".data
  else name ++ ": ".data ++ (List.intercalate " ".data (s.take 3)).take 500

/-- ModuleAnalyzer.generate_submodule_description: two relevant sentences
joined and truncated to 200 characters, or an untruncated template. -/
def generate_submodule_description (submodule content context : Str) : Str :=
  let s0 := extract_relevant_sentences submodule content
  let s := if s0.isEmpty then extract_relevant_sentences submodule context else s0
  if s.isEmpty then "Functionality related to ".data ++ submodule ++ ".".data
  else (List.intercalate " ".data (s.take 2)).take 200

/-- ModuleAnalyzer.calculate_confidence (floats as rationals). -/
def calculate_confidence (content descr source : Str) : ℚ :=
  let score : ℚ := 1/2
  let score := if 800 < content.length then score + 1/5 else score
  let score := if 100 < descr.length then score + 1/10 else score
  let score := if source = "title".data then score + 1/10 else score
  min score 1

example : reSplit "A first. A second! Third".data
    = ["A first.".data, "A second!".data, "Third".data] := by decide
example : extract_relevant_sentences "Install Guide".data
    "Read the install guide now. Other text here.".data
    = ["Read the install guide now.".data] := by decide
example : calculate_confidence [] [] "title".data = 3/5 := by norm_num [calculate_confidence]

/-! ### output_generator.py: generate_json and its read-back

`generate_json` builds a Python list of dicts and serialises it with
`json.dumps`; parsing the string back with the stdlib gives the same
JSON value, so the round-trip claim is settled on the JSON value the
function builds.  `ModuleRecord` is the record shape produced by
ModuleAnalyzer.format_output (the keys 'module', 'Description',
'Submodules', 'confidence_score'; format_output emits no 'source_urls',
so `module.get('source_urls', [])` yields the empty list). -/

structure ModuleRecord where
  module : Str
  descr : Str
  submodules : List (Str × Str)
  confidence : ℚ

inductive JValue where
  | jstr : Str → JValue
  | jnum : ℚ → JValue
  | jarr : List JValue → JValue
  | jobj : List (Str × JValue) → JValue

/-- The JSON object generate_json builds for one module record;
`ts` is the generator's construction timestamp. -/
def moduleJson (ts : Str) (includeMeta : Bool) (m : ModuleRecord) : JValue :=
  JValue.jobj
    ([("module".data, JValue.jstr m.module),
      ("Description".data, JValue.jstr m.descr),
      ("Submodules".data,
        JValue.jobj (m.submodules.map (fun p => (p.1, JValue.jstr p.2))))]
      ++ (if includeMeta then
            [("metadata".data, JValue.jobj
              [("confidence_score".data, JValue.jnum m.confidence),
               ("source_urls".data, JValue.jarr []),
               ("extraction_timestamp".data, JValue.jstr ts)])]
          else []))

/-- OutputGenerator.generate_json, up to json.dumps serialisation. -/
def generate_json (ts : Str) (modules : List ModuleRecord) (includeMeta : Bool) : JValue :=
  JValue.jarr (modules.map (moduleJson ts includeMeta))

def jlookup (l : List (Str × JValue)) (k : Str) : Option JValue :=
  (l.find? (fun p => p.1 == k)).map (fun p => p.2)

def readSubsList : List (Str × JValue) → Option (List (Str × Str))
  | [] => some []
  | (k, JValue.jstr d) :: rest => (readSubsList rest).map (fun tl => (k, d) :: tl)
  | _ => none

def readConf (j : JValue) : Option ℚ :=
  match j with
  | JValue.jobj l =>
    match jlookup l "metadata".data with
    | some (JValue.jobj ml) =>
      match jlookup ml "confidence_score".data with
      | some (JValue.jnum q) => some q
      | _ => none
    | _ => none
  | _ => none

/-- What a consumer recovers from one parsed module object: name,
description, submodule mapping, and the confidence score if present. -/
def readModuleBack (j : JValue) : Option (Str × Str × List (Str × Str) × Option ℚ) :=
  match j with
  | JValue.jobj l =>
    match jlookup l "module".data, jlookup l "Description".data,
          jlookup l "Submodules".data with
    | some (JValue.jstr n), some (JValue.jstr d), some (JValue.jobj sl) =>
      (readSubsList sl).map (fun subs => (n, d, subs, readConf j))
    | _, _, _ => none
  | _ => none

def readBackList : List JValue → Option (List (Str × Str × List (Str × Str) × Option ℚ))
  | [] => some []
  | j :: rest =>
    match readModuleBack j, readBackList rest with
    | some x, some xs => some (x :: xs)
    | _, _ => none

def readBack (j : JValue) : Option (List (Str × Str × List (Str × Str) × Option ℚ)) :=
  match j with
  | JValue.jarr l => readBackList l
  | _ => none

/-! ### analyzer.py: cluster_modules TF-IDF fallback (no embedder)

The TF-IDF similarity computation is sklearn code; its outcome is a
parameter: `none` models the similarity step raising (caught by the
`except` branch, which returns the candidates unmodified), `some ()`
models it returning normally (the computed matrix is never read). -/

structure Candidate where
  name : Str
  source : Str
  content : Str
  url : Str
deriving DecidableEq

def lowName (c : Candidate) : Str := lowerStr c.name

/-- The dedup loop of the fallback: keep a candidate when its lowercased
name has not been seen yet (first occurrence wins). -/
def dedupByNameAux : List Str → List Candidate → List Candidate
  | _, [] => []
  | seen, c :: cs =>
    if lowName c ∈ seen then dedupByNameAux seen cs
    else c :: dedupByNameAux (lowName c :: seen) cs

/-- ModuleAnalyzer.cluster_modules restricted to the no-embedder path:
empty input short-circuits to []; a similarity failure returns the
candidates unmodified; otherwise the case-insensitive name dedup runs. -/
def cluster_modules_fallback (simOutcome : Option Unit) (cands : List Candidate) : List Candidate :=
  if cands.isEmpty then []
  else
    match simOutcome with
    | none => cands
    | some _ => dedupByNameAux [] cands

/-! ### crawler.py: AsyncCrawler.crawl_documentation as a state machine

The crawl is cooperative single-process concurrency: coroutines suspend
only inside `fetch_page` (semaphore and network awaits).  The admission
prologue of `crawl_recursive` (the depth / page-cap / visited check and
the `visited_urls.add`) runs without suspension, and after a fetch
returns, the result insertion, link extraction and task spawning also run
without suspension (`await self.extract_links` never yields: the coroutine
contains no awaits).  So a run is an interleaving of two kinds of atomic
steps per URL: its admission, and its fetch completion.  The scheduler's
choices (which pending coroutine runs, how long a fetch takes, and which
enumeration order `list(set(links))` produces — Python string hashing is
seed-randomised) are the nondeterminism of the `CStep` relation.  The
semaphore only limits fetch throughput; it never blocks admissions, so it
restricts no reachable state.

Oracles in `CrawlEnv`: `fetch u` is the outcome of the network/cache fetch
of `u` (`none` = non-200 / network error / parse error, caught by
fetch_page's `except`); `rawHrefs u` are the page's anchor hrefs in markup
discovery order; `urljoin` is `urllib.parse.urljoin`; `titleOf` is
extract_title on the page's html.  `fetchLogged` additionally records, as
ghost state, every URL admitted to fetching together with the size of the
result mapping at admission time. -/

structure CrawlEnv where
  fetch : Str → Option (Str × Str)
  rawHrefs : Str → List Str
  urljoin : Str → Str → Str
  titleOf : Str → Str

/-- fetch_page followed by crawl_recursive's `if content and html:` guard
(Python truthiness: empty strings are falsy). -/
def fetchOk (env : CrawlEnv) (u : Str) : Option (Str × Str) :=
  match env.fetch u with
  | some (c, h) => if c.isEmpty || h.isEmpty then none else some (c, h)
  | none => none

/-- AsyncCrawler.extract_links before the `list(set(...))` dedup: skip
'#'- and 'javascript:'-anchors, resolve against the page URL, canonicalise
with normalize_url, keep same-domain links, in discovery order. -/
def discoveredLinks (env : CrawlEnv) (base : Str) (u : Str) : List Str :=
  (env.rawHrefs u).filterMap (fun href =>
    if "#".data.isPrefixOf href || "javascript:".data.isPrefixOf href then none
    else
      let nrm := normalize_url (env.urljoin u href)
      if is_internal_link nrm base then some nrm else none)

structure PageRec where
  url : Str
  content : Str
  html : Str
  depth : Nat
  title : Str
deriving DecidableEq

def mkRec (env : CrawlEnv) (u c h : Str) (d : Nat) : PageRec :=
  ⟨u, c, h, d, env.titleOf h⟩

inductive CTask where
  | entry (url : Str) (depth : Nat)
  | fetching (url : Str) (depth : Nat)
deriving DecidableEq

structure CrawlState where
  visited : List Str
  results : List (Str × PageRec)
  tasks : List CTask
  fetchLogged : List (Str × Nat)
deriving DecidableEq

/-- Python dict assignment `results[url] = rec`. -/
def dictInsert (l : List (Str × PageRec)) (k : Str) (v : PageRec) : List (Str × PageRec) :=
  match l with
  | [] => [(k, v)]
  | (k', v') :: rest =>
    if k' = k then (k, v) :: rest else (k', v') :: dictInsert rest k v

/-- The tasks spawned a page's completion: the first 10 of the
deduplicated link list, minus already-visited ones, at depth d+1
(`for link in links[:10] if link not in self.visited_urls`). -/
def spawned (v : List Str) (L : List Str) (d : Nat) : List CTask :=
  ((L.take 10).filter (fun x => decide (x ∉ v))).map (fun x => CTask.entry x (d + 1))

/-- One atomic scheduler step of the crawl. -/
inductive CStep (env : CrawlEnv) (base : Str) (maxDepth maxPages : Nat) :
    CrawlState → CrawlState → Prop where
  | skip (v r log) (l₁ l₂ : List CTask) (u : Str) (d : Nat)
      (hcond : maxDepth < d ∨ maxPages ≤ r.length ∨ u ∈ v) :
      CStep env base maxDepth maxPages
        ⟨v, r, l₁ ++ CTask.entry u d :: l₂, log⟩
        ⟨v, r, l₁ ++ l₂, log⟩
  | visit (v r log) (l₁ l₂ : List CTask) (u : Str) (d : Nat)
      (hd : d ≤ maxDepth) (hp : r.length < maxPages) (hv : u ∉ v) :
      CStep env base maxDepth maxPages
        ⟨v, r, l₁ ++ CTask.entry u d :: l₂, log⟩
        ⟨u :: v, r, l₁ ++ CTask.fetching u d :: l₂, log ++ [(u, r.length)]⟩
  | fetchFail (v r log) (l₁ l₂ : List CTask) (u : Str) (d : Nat)
      (hf : fetchOk env u = none) :
      CStep env base maxDepth maxPages
        ⟨v, r, l₁ ++ CTask.fetching u d :: l₂, log⟩
        ⟨v, r, l₁ ++ l₂, log⟩
  | fetchLeaf (v r log) (l₁ l₂ : List CTask) (u c h : Str) (d : Nat)
      (hf : fetchOk env u = some (c, h)) (hd : maxDepth ≤ d) :
      CStep env base maxDepth maxPages
        ⟨v, r, l₁ ++ CTask.fetching u d :: l₂, log⟩
        ⟨v, dictInsert r u (mkRec env u c h d), l₁ ++ l₂, log⟩
  | fetchSpawn (v r log) (l₁ l₂ : List CTask) (u c h : Str) (d : Nat) (L : List Str)
      (hf : fetchOk env u = some (c, h)) (hd : d < maxDepth)
      (hnd : L.Nodup) (hmem : ∀ x, x ∈ L ↔ x ∈ discoveredLinks env base u) :
      CStep env base maxDepth maxPages
        ⟨v, r, l₁ ++ CTask.fetching u d :: l₂, log⟩
        ⟨v, dictInsert r u (mkRec env u c h d), (l₁ ++ l₂) ++ spawned v L d, log⟩

/-- crawl_documentation's initial state: the raw seed URL, depth 0. -/
def crawlInit (start : Str) : CrawlState := ⟨[], [], [CTask.entry start 0], []⟩

/-- All states some scheduling of `crawl_documentation(start, maxDepth,
maxPages)` can reach (base domain as computed by the code). -/
def CrawlReach (env : CrawlEnv) (maxDepth maxPages : Nat) (start : Str)
    (s : CrawlState) : Prop :=
  Relation.ReflTransGen
    (CStep env (extract_domain start) maxDepth maxPages) (crawlInit start) s

/-! ### Crawl invariants -/

def isFetch (t : CTask) : Bool :=
  match t with
  | CTask.fetching _ _ => true
  | _ => false

/-- Number of URLs currently admitted to fetching but not yet completed. -/
def countFetch (ts : List CTask) : Nat := ts.countP isFetch

lemma mem_middle {α : Type} (l₁ l₂ : List α) (t x : α) :
    x ∈ l₁ ++ t :: l₂ ↔ x = t ∨ x ∈ l₁ ++ l₂ := by
  simp [List.mem_append, List.mem_cons]
  tauto

lemma mem_dictInsert (l : List (Str × PageRec)) (k : Str) (v : PageRec) :
    ∀ p ∈ dictInsert l k v, p = (k, v) ∨ p ∈ l := by
  induction l with
  | nil => simp [dictInsert]
  | cons hd tl ih =>
    intro p hp
    rw [dictInsert] at hp
    by_cases hk : hd.1 = k
    · simp only [hk, if_pos rfl] at hp
      rcases List.mem_cons.mp hp with h | h
      · exact Or.inl h
      · exact Or.inr (List.mem_cons_of_mem _ h)
    · rw [show ((hd.1, hd.2) : Str × PageRec) = hd from rfl] at hp
      simp only [if_neg hk] at hp
      rcases List.mem_cons.mp hp with h | h
      · exact Or.inr (h ▸ List.mem_cons_self _ _)
      · rcases ih p h with h' | h'
        · exact Or.inl h'
        · exact Or.inr (List.mem_cons_of_mem _ h')

lemma length_dictInsert (l : List (Str × PageRec)) (k : Str) (v : PageRec) :
    (dictInsert l k v).length ≤ l.length + 1 := by
  induction l with
  | nil => simp [dictInsert]
  | cons hd tl ih =>
    rw [dictInsert]
    by_cases hk : hd.1 = k
    · simp [if_pos hk]
    · rw [show ((hd.1, hd.2) : Str × PageRec) = hd from rfl]
      simp only [if_neg hk, List.length_cons]
      omega

lemma countFetch_append (a b : List CTask) :
    countFetch (a ++ b) = countFetch a + countFetch b := by
  simp [countFetch, List.countP_append]

lemma countFetch_entry (u : Str) (d : Nat) :
    countFetch [CTask.entry u d] = 0 := by
  simp [countFetch, List.countP, List.countP.go, isFetch]

lemma countFetch_fetching (u : Str) (d : Nat) :
    countFetch [CTask.fetching u d] = 1 := by
  simp [countFetch, List.countP, List.countP.go, isFetch]

lemma mem_spawned (v : List Str) (L : List Str) (d : Nat) :
    ∀ t ∈ spawned v L d, ∃ x, t = CTask.entry x (d + 1) ∧ x ∈ L ∧ x ∉ v := by
  intro t ht
  rcases List.mem_map.mp ht with ⟨x, hx, rfl⟩
  rcases List.mem_filter.mp hx with ⟨hx10, hxv⟩
  exact ⟨x, rfl, List.mem_of_mem_take hx10, of_decide_eq_true hxv⟩

lemma length_spawned (v : List Str) (L : List Str) (d : Nat) :
    (spawned v L d).length ≤ 10 := by
  calc (spawned v L d).length
      = ((L.take 10).filter (fun x => decide (x ∉ v))).length := by
        simp [spawned]
    _ ≤ (L.take 10).length := List.length_filter_le _ _
    _ ≤ 10 := List.length_take_le _ _

lemma countFetch_spawned (v : List Str) (L : List Str) (d : Nat) :
    countFetch (spawned v L d) = 0 := by
  rw [countFetch, List.countP_eq_zero]
  intro t ht
  rcases mem_spawned v L d t ht with ⟨x, rfl, -, -⟩
  simp [isFetch]

lemma mem_discoveredLinks (env : CrawlEnv) (base u x : Str) :
    x ∈ discoveredLinks env base u →
    ∃ href, href ∈ env.rawHrefs u ∧ x = normalize_url (env.urljoin u href) := by
  intro hx
  rcases List.mem_filterMap.mp hx with ⟨href, hhref, hfx⟩
  refine ⟨href, hhref, ?_⟩
  by_cases h1 : "#".data.isPrefixOf href || "javascript:".data.isPrefixOf href
  · simp [discoveredLinks, h1] at hfx
  · simp only [h1, if_false, Bool.false_eq_true] at hfx
    by_cases h2 : is_internal_link (normalize_url (env.urljoin u href)) base
    · simp only [if_pos h2, Option.some_inj] at hfx
      exact hfx.symm
    · simp [h2] at hfx

/-- The inductive invariant of the crawl step relation. -/
def CInv (env : CrawlEnv) (maxDepth maxPages : Nat) (start : Str)
    (s : CrawlState) : Prop :=
  (∀ u d, CTask.fetching u d ∈ s.tasks → d ≤ maxDepth ∧ u ∈ s.visited) ∧
  (∀ u rec, (u, rec) ∈ s.results →
    rec.depth ≤ maxDepth ∧ ∃ c h, fetchOk env u = some (c, h)) ∧
  ((s.fetchLogged.map Prod.fst).Nodup) ∧
  (∀ p ∈ s.fetchLogged, p.1 ∈ s.visited ∧ p.2 < maxPages) ∧
  (∀ u ∈ s.visited, u = start ∨ ∃ a, u = normalize_url a) ∧
  (∀ u d, CTask.entry u d ∈ s.tasks → u = start ∨ ∃ a, u = normalize_url a) ∧
  (s.results.length + countFetch s.tasks ≤ s.fetchLogged.length)

lemma countFetch_middle (l₁ l₂ : List CTask) (t : CTask) :
    countFetch (l₁ ++ t :: l₂) = countFetch (l₁ ++ l₂) + countFetch [t] := by
  simp [countFetch, List.countP_append, List.countP_cons]
  omega

lemma cinv_init (env : CrawlEnv) (maxDepth maxPages : Nat) (start : Str) :
    CInv env maxDepth maxPages start (crawlInit start) := by
  refine ⟨?_, ?_, ?_, ?_, ?_, ?_, ?_⟩
  · intro u d h
    simp [crawlInit] at h
  · intro u rec h
    simp [crawlInit] at h
  · simp [crawlInit]
  · intro p hp
    simp [crawlInit] at hp
  · intro u hu
    simp [crawlInit] at hu
  · intro u d h
    simp only [crawlInit, List.mem_singleton] at h
    cases h
    exact Or.inl rfl
  · simp [crawlInit, countFetch, List.countP, List.countP.go, isFetch]

lemma cinv_step (env : CrawlEnv) (base : Str) (maxDepth maxPages : Nat) (start : Str)
    (s s' : CrawlState) (hstep : CStep env base maxDepth maxPages s s')
    (hs : CInv env maxDepth maxPages start s) : CInv env maxDepth maxPages start s' := by
  obtain ⟨hF, hR, hND, hLog, hVis, hE, hCnt⟩ := hs
  cases hstep with
  | skip v r log l₁ l₂ u d hcond =>
    refine ⟨?_, hR, hND, hLog, hVis, ?_, ?_⟩
    · intro u' d' h
      exact hF u' d' ((mem_middle l₁ l₂ _ _).mpr (Or.inr h))
    · intro u' d' h
      exact hE u' d' ((mem_middle l₁ l₂ _ _).mpr (Or.inr h))
    · have h1 := countFetch_middle l₁ l₂ (CTask.entry u d)
      simp only [countFetch_entry, Nat.add_zero] at h1
      have h2 : r.length + countFetch (l₁ ++ CTask.entry u d :: l₂) ≤ log.length := hCnt
      show r.length + countFetch (l₁ ++ l₂) ≤ log.length
      omega
  | visit v r log l₁ l₂ u d hd hp hv =>
    refine ⟨?_, hR, ?_, ?_, ?_, ?_, ?_⟩
    · intro u' d' h
      rcases (mem_middle l₁ l₂ _ _).mp h with heq | hmem
      · cases heq
        exact ⟨hd, List.mem_cons_self _ _⟩
      · rcases hF u' d' ((mem_middle l₁ l₂ _ _).mpr (Or.inr hmem)) with ⟨h1, h2⟩
        exact ⟨h1, List.mem_cons_of_mem _ h2⟩
    · have hu_notin : u ∉ log.map Prod.fst := by
        intro hmem
        rcases List.mem_map.mp hmem with ⟨p, hp', hp1⟩
        exact hv (hp1 ▸ (hLog p hp').1)
      simp only [List.map_append, List.map_cons, List.map_nil]
      exact List.Nodup.append hND (List.nodup_singleton u)
        (by simpa [List.disjoint_right] using hu_notin)
    · intro p hp'
      rcases List.mem_append.mp hp' with h | h
      · rcases hLog p h with ⟨h1, h2⟩
        exact ⟨List.mem_cons_of_mem _ h1, h2⟩
      · rcases List.mem_singleton.mp h with rfl
        exact ⟨List.mem_cons_self _ _, hp⟩
    · intro u' hu'
      rcases List.mem_cons.mp hu' with rfl | h
      · exact hE u' d ((mem_middle l₁ l₂ _ _).mpr (Or.inl rfl))
      · exact hVis u' h
    · intro u' d' h
      rcases (mem_middle l₁ l₂ _ _).mp h with heq | hmem
      · cases heq
      · exact hE u' d' ((mem_middle l₁ l₂ _ _).mpr (Or.inr hmem))
    · have h1 := countFetch_middle l₁ l₂ (CTask.entry u d)
      have h2 := countFetch_middle l₁ l₂ (CTask.fetching u d)
      simp only [countFetch_entry, countFetch_fetching, Nat.add_zero] at h1 h2
      have h3 : r.length + countFetch (l₁ ++ CTask.entry u d :: l₂) ≤ log.length := hCnt
      show r.length + countFetch (l₁ ++ CTask.fetching u d :: l₂)
          ≤ (log ++ [(u, r.length)]).length
      simp only [List.length_append, List.length_singleton]
      omega
  | fetchFail v r log l₁ l₂ u d hf =>
    refine ⟨?_, hR, hND, hLog, hVis, ?_, ?_⟩
    · intro u' d' h
      exact hF u' d' ((mem_middle l₁ l₂ _ _).mpr (Or.inr h))
    · intro u' d' h
      exact hE u' d' ((mem_middle l₁ l₂ _ _).mpr (Or.inr h))
    · have h1 := countFetch_middle l₁ l₂ (CTask.fetching u d)
      simp only [countFetch_fetching] at h1
      have h2 : r.length + countFetch (l₁ ++ CTask.fetching u d :: l₂) ≤ log.length := hCnt
      show r.length + countFetch (l₁ ++ l₂) ≤ log.length
      omega
  | fetchLeaf v r log l₁ l₂ u c h d hf hd =>
    refine ⟨?_, ?_, hND, hLog, hVis, ?_, ?_⟩
    · intro u' d' h'
      exact hF u' d' ((mem_middle l₁ l₂ _ _).mpr (Or.inr h'))
    · intro u' rec h'
      rcases mem_dictInsert _ _ _ _ h' with heq | hmem
      · rw [Prod.mk.injEq] at heq
        have hud := hF u d ((mem_middle l₁ l₂ _ _).mpr (Or.inl rfl))
        obtain ⟨hqu, hqr⟩ := heq
        subst hqu
        subst hqr
        exact ⟨hud.1, c, h, hf⟩
      · exact hR u' rec hmem
    · intro u' d' h'
      exact hE u' d' ((mem_middle l₁ l₂ _ _).mpr (Or.inr h'))
    · have h1 := countFetch_middle l₁ l₂ (CTask.fetching u d)
      simp only [countFetch_fetching] at h1
      have h2 := length_dictInsert r u (mkRec env u c h d)
      have h3 : r.length + countFetch (l₁ ++ CTask.fetching u d :: l₂) ≤ log.length := hCnt
      show (dictInsert r u (mkRec env u c h d)).length + countFetch (l₁ ++ l₂) ≤ log.length
      omega
  | fetchSpawn v r log l₁ l₂ u c h d L hf hd hnd hmem =>
    refine ⟨?_, ?_, hND, hLog, hVis, ?_, ?_⟩
    · intro u' d' h'
      rcases List.mem_append.mp h' with h'' | h''
      · exact hF u' d' ((mem_middle l₁ l₂ _ _).mpr (Or.inr h''))
      · rcases mem_spawned v L d _ h'' with ⟨x, hx, -, -⟩
        cases hx
    · intro u' rec h'
      rcases mem_dictInsert _ _ _ _ h' with heq | hmem'
      · rw [Prod.mk.injEq] at heq
        have hud := hF u d ((mem_middle l₁ l₂ _ _).mpr (Or.inl rfl))
        obtain ⟨hqu, hqr⟩ := heq
        subst hqu
        subst hqr
        exact ⟨hud.1, c, h, hf⟩
      · exact hR u' rec hmem'
    · intro u' d' h'
      rcases List.mem_append.mp h' with h'' | h''
      · exact hE u' d' ((mem_middle l₁ l₂ _ _).mpr (Or.inr h''))
      · rcases mem_spawned v L d _ h'' with ⟨x, hx, hxL, -⟩
        injection hx with hxu hxd
        subst hxu
        rcases mem_discoveredLinks env base u u' ((hmem u').mp hxL) with ⟨href, -, hx2⟩
        exact Or.inr ⟨env.urljoin u href, hx2⟩
    · have h1 := countFetch_middle l₁ l₂ (CTask.fetching u d)
      simp only [countFetch_fetching] at h1
      have h2 := length_dictInsert r u (mkRec env u c h d)
      have h3 : countFetch ((l₁ ++ l₂) ++ spawned v L d)
          = countFetch (l₁ ++ l₂) := by
        simp [countFetch_append, countFetch_spawned]
      have h4 : r.length + countFetch (l₁ ++ CTask.fetching u d :: l₂) ≤ log.length := hCnt
      show (dictInsert r u (mkRec env u c h d)).length
          + countFetch ((l₁ ++ l₂) ++ spawned v L d) ≤ log.length
      omega

lemma cinv_reach (env : CrawlEnv) (maxDepth maxPages : Nat) (start : Str)
    (s : CrawlState) (h : CrawlReach env maxDepth maxPages start s) :
    CInv env maxDepth maxPages start s := by
  induction h with
  | refl => exact cinv_init env maxDepth maxPages start
  | tail hab hbc ih =>
    exact cinv_step env (extract_domain start) maxDepth maxPages start _ _ hbc ih

/-! ### Claim C4: confidence score -/

/-- Modelled from the spec's words, for comparison with the code:
"Deterministic additive score starting at 0.5: +0.2 if module content
length >800 chars, +0.1 if description length >100 chars, +0.1 if the
representative candidate's source was title; clamped to a maximum of
1.0". -/
def confidenceSpec (content descr source : Str) : ℚ :=
  min (1/2 + (if 800 < content.length then 1/5 else 0)
      + (if 100 < descr.length then 1/10 else 0)
      + (if source = "title".data then 1/10 else 0)) 1

/-- C4: for every module and description, calculate_confidence is exactly
the additive spec formula (0.5, +0.2 for content > 800 chars, +0.1 for
description > 100 chars, +0.1 for source "title", clamped at 1.0), and the
result always lies in the interval [0.5, 1.0]. -/
theorem c4_confidence_formula_and_range :
    ∀ content descr source : Str,
      calculate_confidence content descr source = confidenceSpec content descr source ∧
      1/2 ≤ calculate_confidence content descr source ∧
      calculate_confidence content descr source ≤ 1 := by
  intro content descr source
  unfold calculate_confidence confidenceSpec
  split_ifs <;> norm_num [min_def]

/-! ### Claim C1: description lengths -/

lemma len_desc_core (name : Str) (s : List Str) :
    (if s.isEmpty then "Module related to ".data ++ name ++ " functionality.".data
     else name ++ ": ".data ++ (List.intercalate " ".data (s.take 3)).take 500).length
      ≤ name.length + 502 := by
  split
  · rw [List.length_append, List.length_append]
    have hA : ("Module related to ".data).length = 18 := rfl
    have hB : (" functionality.".data).length = 15 := rfl
    omega
  · rw [List.length_append, List.length_append]
    have h2 : (": ".data).length = 2 := rfl
    have h3 := List.length_take_le 500 (List.intercalate " ".data (s.take 3))
    omega

lemma len_subdesc_core (sub : Str) (s : List Str) :
    (if s.isEmpty then "Functionality related to ".data ++ sub ++ ".".data
     else (List.intercalate " ".data (s.take 2)).take 200).length
      ≤ sub.length + 200 := by
  split
  · rw [List.length_append, List.length_append]
    have hA : ("Functionality related to ".data).length = 25 := rfl
    have hB : (".".data).length = 1 := rfl
    omega
  · have h3 := List.length_take_le 200 (List.intercalate " ".data (s.take 2))
    omega

lemma subdesc_sentence_path (sub scon sctx : Str)
    (h : ¬(extract_relevant_sentences sub scon).isEmpty) :
    (generate_submodule_description sub scon sctx).length ≤ 200 := by
  cases h0 : extract_relevant_sentences sub scon with
  | nil => rw [h0] at h; simp at h
  | cons a t =>
    have : generate_submodule_description sub scon sctx
        = (List.intercalate " ".data ((a :: t).take 2)).take 200 := by
      dsimp only [generate_submodule_description]
      rw [h0]
      simp
    rw [this]
    exact List.length_take_le _ _

/-- C1, amended: the 500-character truncation applies to the joined
sentences before the `name: ` prefix is added, and the templated fallbacks
grow with the name, so a heuristic module description is bounded by
`len(name) + 502` (not 500); a submodule description is bounded by
`len(subname) + 200`, and by 200 whenever the sentence-extraction path is
taken (the fallback template is bounded by `len(subname) + 26 ≤
len(subname) + 200`). -/
theorem c1_amended_description_bounds :
    ∀ name content context sub scon sctx : Str,
      (generate_description_algorithmic name content context).length
        ≤ name.length + 502 ∧
      (generate_submodule_description sub scon sctx).length ≤ sub.length + 200 ∧
      (¬(extract_relevant_sentences sub scon).isEmpty →
        (generate_submodule_description sub scon sctx).length ≤ 200) := by
  intro name content context sub scon sctx
  refine ⟨?_, ?_, subdesc_sentence_path sub scon sctx⟩
  · dsimp only [generate_description_algorithmic]
    exact len_desc_core name _
  · dsimp only [generate_submodule_description]
    exact len_subdesc_core sub _

set_option maxRecDepth 20000 in
/-- C1, counterexample to the claim as stated: a module named
"Alpha Beta" whose content is a single relevant 512-character sentence
gets the description `"Alpha Beta: " ++ (sentence truncated to 500)`,
of length 512 > 500. -/
theorem c1_counterexample :
    500 < (generate_description_algorithmic "Alpha Beta".data
      ("alpha beta ".data ++ List.replicate 500 'x' ++ ".".data) []).length := by
  decide

/-- C1 witness: a concrete submodule whose description takes the
sentence-extraction path and obeys the 200-character bound. -/
theorem c1_witness :
    ¬(extract_relevant_sentences "install".data "See the install steps.".data).isEmpty ∧
    (generate_submodule_description "install".data "See the install steps.".data
      []).length ≤ 200 :=
  ⟨by decide,
   (c1_amended_description_bounds [] [] [] "install".data
     "See the install steps.".data []).2.2 (by decide)⟩

/-! ### Claim C5: clustering fallback -/

lemma dedupAux_sublist (seen : List Str) (cs : List Candidate) :
    (dedupByNameAux seen cs).Sublist cs := by
  induction cs generalizing seen with
  | nil => simp [dedupByNameAux]
  | cons c cs ih =>
    rw [dedupByNameAux]
    split
    · exact (ih seen).cons c
    · exact (ih _).cons₂ c

lemma dedupAux_not_seen (seen : List Str) (cs : List Candidate) :
    ∀ c' ∈ dedupByNameAux seen cs, lowName c' ∉ seen := by
  induction cs generalizing seen with
  | nil => simp [dedupByNameAux]
  | cons c cs ih =>
    intro c' h'
    rw [dedupByNameAux] at h'
    split at h'
    · exact ih seen c' h'
    · rcases List.mem_cons.mp h' with rfl | h''
      · assumption
      · intro hc
        exact ih _ c' h'' (List.mem_cons_of_mem _ hc)

lemma dedupAux_nodup (seen : List Str) (cs : List Candidate) :
    ((dedupByNameAux seen cs).map lowName).Nodup := by
  induction cs generalizing seen with
  | nil => simp [dedupByNameAux]
  | cons c cs ih =>
    rw [dedupByNameAux]
    split
    · exact ih seen
    · simp only [List.map_cons, List.nodup_cons]
      refine ⟨?_, ih _⟩
      intro hmem
      rcases List.mem_map.mp hmem with ⟨c', hc', he⟩
      exact dedupAux_not_seen _ _ c' hc' (he ▸ List.mem_cons_self _ _)

lemma dedupAux_covers (seen : List Str) (cs : List Candidate) :
    ∀ c ∈ cs, lowName c ∈ seen ∨
      ∃ c' ∈ dedupByNameAux seen cs, lowName c' = lowName c := by
  induction cs generalizing seen with
  | nil => simp
  | cons c0 cs ih =>
    intro c hc
    rw [dedupByNameAux]
    rcases List.mem_cons.mp hc with rfl | hc'
    · split
      · left; assumption
      · right; exact ⟨c, List.mem_cons_self _ _, rfl⟩
    · split
      · exact ih seen c hc'
      · rcases ih (lowName c0 :: seen) c hc' with h | ⟨c', hc'', he⟩
        · rcases List.mem_cons.mp h with he0 | h2
          · right; exact ⟨c0, List.mem_cons_self _ _, he0.symm⟩
          · left; exact h2
        · right; exact ⟨c', List.mem_cons_of_mem _ hc'', he⟩

lemma dedupAux_first (seen : List Str) (cs : List Candidate) :
    ∀ c' ∈ dedupByNameAux seen cs,
      cs.find? (fun c => decide (lowName c = lowName c')) = some c' := by
  induction cs generalizing seen with
  | nil => simp [dedupByNameAux]
  | cons c0 cs ih =>
    intro c' h'
    rw [dedupByNameAux] at h'
    by_cases h0 : lowName c0 ∈ seen
    · rw [if_pos h0] at h'
      have hns := dedupAux_not_seen seen cs c' h'
      have hne : lowName c0 ≠ lowName c' := fun he => hns (he ▸ h0)
      rw [List.find?_cons_of_neg _ (by simpa using hne)]
      exact ih seen c' h'
    · rw [if_neg h0] at h'
      rcases List.mem_cons.mp h' with rfl | h''
      · rw [List.find?_cons_of_pos _ (by simp)]
      · have hns := dedupAux_not_seen _ cs c' h''
        have hne : lowName c0 ≠ lowName c' := by
          intro he
          exact hns (by rw [← he]; exact List.mem_cons_self _ _)
        rw [List.find?_cons_of_neg _ (by simpa using hne)]
        exact ih _ c' h''

/-- C5: with no embedder, cluster_modules deduplicates by
case-insensitive exact name (first occurrence wins) whenever the TF-IDF
similarity step returns — the similarity values themselves are never
consulted — and a failure of the similarity step is caught and yields the
candidate list unmodified (the function is total: no exception escapes).
`o = none` models the similarity step raising, `o = some ()` models it
returning normally. -/
theorem c5_cluster_fallback_dedup :
    ∀ (cands : List Candidate) (o : Option Unit),
      (o = none → cluster_modules_fallback o cands = cands) ∧
      (o ≠ none →
        (cluster_modules_fallback o cands).Sublist cands ∧
        ((cluster_modules_fallback o cands).map lowName).Nodup ∧
        (∀ c ∈ cands, ∃ c' ∈ cluster_modules_fallback o cands,
          lowName c' = lowName c) ∧
        (∀ c' ∈ cluster_modules_fallback o cands,
          cands.find? (fun c => decide (lowName c = lowName c')) = some c')) := by
  intro cands o
  constructor
  · rintro rfl
    cases cands <;> simp [cluster_modules_fallback]
  · intro ho
    obtain ⟨u, rfl⟩ := Option.ne_none_iff_exists'.mp ho
    cases cands with
    | nil => simp [cluster_modules_fallback]
    | cons c cs =>
      have hcl : cluster_modules_fallback (some u) (c :: cs)
          = dedupByNameAux [] (c :: cs) := by
        simp [cluster_modules_fallback]
      rw [hcl]
      refine ⟨dedupAux_sublist _ _, dedupAux_nodup _ _, ?_, dedupAux_first _ _⟩
      intro cc hcc
      rcases dedupAux_covers [] (c :: cs) cc hcc with h | h
      · simp at h
      · exact h

def c5Demo : List Candidate :=
  [⟨"Setup".data, "title".data, [], []⟩,
   ⟨"SETUP".data, "heading_h1".data, [], []⟩,
   ⟨"Guide".data, "heading_h2".data, [], []⟩]

/-- C5 witness: on a concrete candidate list, a similarity failure
returns the list unmodified, and a similarity success yields a
case-insensitively name-deduplicated list. -/
theorem c5_witness :
    cluster_modules_fallback none c5Demo = c5Demo ∧
    ((cluster_modules_fallback (some ()) c5Demo).map lowName).Nodup :=
  ⟨(c5_cluster_fallback_dedup c5Demo none).1 rfl,
   ((c5_cluster_fallback_dedup c5Demo (some ())).2 (by simp)).2.1⟩

/-! ### Claim C2: generate_json round-trip -/

lemma readSubsList_roundtrip (l : List (Str × Str)) :
    readSubsList (l.map (fun p => (p.1, JValue.jstr p.2))) = some l := by
  induction l with
  | nil => rfl
  | cons p t ih => simp [readSubsList, ih]

lemma readModuleBack_gen (ts : Str) (m : ModuleRecord) :
    readModuleBack (moduleJson ts true m)
      = some (m.module, m.descr, m.submodules, some m.confidence) := by
  show (readSubsList (m.submodules.map (fun p => (p.1, JValue.jstr p.2)))).map
      (fun subs => (m.module, m.descr, subs, readConf (moduleJson ts true m))) = _
  rw [readSubsList_roundtrip]
  rfl

lemma readModuleBack_gen_nometa (ts : Str) (m : ModuleRecord) :
    readModuleBack (moduleJson ts false m)
      = some (m.module, m.descr, m.submodules, none) := by
  show (readSubsList (m.submodules.map (fun p => (p.1, JValue.jstr p.2)))).map
      (fun subs => (m.module, m.descr, subs, readConf (moduleJson ts false m))) = _
  rw [readSubsList_roundtrip]
  rfl

/-- C2, amended: with `include_metadata=True`, parsing generate_json's
output reproduces every record's module name, description, submodule
mapping, and (under `metadata.confidence_score`) its confidence score.
With the default `include_metadata=False`, only name, description and
submodules are reproduced — the JSON contains no confidence at all (see
the counterexample).  (json.dumps/json.loads of the built value is the
Python stdlib, assumed faithful; the claim is settled on the JSON value
generate_json builds.) -/
theorem c2_amended_roundtrip :
    ∀ (ts : Str) (ms : List ModuleRecord),
      readBack (generate_json ts ms true)
        = some (ms.map (fun m =>
            (m.module, m.descr, m.submodules, some m.confidence))) := by
  intro ts ms
  induction ms with
  | nil => rfl
  | cons m t ih =>
    have ih' : readBackList (t.map (moduleJson ts true))
        = some (t.map (fun m => (m.module, m.descr, m.submodules, some m.confidence))) := ih
    show readBackList ((m :: t).map (moduleJson ts true)) = _
    rw [List.map_cons]
    simp [readBackList, readModuleBack_gen, ih']

def c2Demo : ModuleRecord :=
  ⟨"Setup".data, "Setup: install.".data,
   [("Install".data, "Install steps.".data)], 9/10⟩

def c2Ts : Str := "2026-10-12T00:00:00".data

/-- C2, counterexample to the claim as stated: under the default
`include_metadata=False`, the record's confidence score 9/10 is absent
from generate_json's output — parsing recovers name, description and
submodules but no confidence score. -/
theorem c2_counterexample :
    readBack (generate_json c2Ts [c2Demo] false)
      = some [(c2Demo.module, c2Demo.descr, c2Demo.submodules, none)] ∧
    c2Demo.confidence = 9/10 ∧
    (none : Option ℚ) ≠ some c2Demo.confidence := by
  refine ⟨rfl, rfl, by simp⟩

/-! ### Claim C10: normalize_url idempotence

Character toolbox for ASCII lowercasing and scheme characters. -/

lemma char_toNat_ofNat {n : Nat} (h : n.isValidChar) : (Char.ofNat n).toNat = n := by
  rw [Char.ofNat, dif_pos h]
  rfl

lemma toLower_eq (c : Char) :
    c.toLower = if 65 ≤ c.toNat ∧ c.toNat ≤ 90 then Char.ofNat (c.toNat + 32) else c := rfl

lemma toLower_toNat (c : Char) :
    c.toLower.toNat = if 65 ≤ c.toNat ∧ c.toNat ≤ 90 then c.toNat + 32 else c.toNat := by
  rw [toLower_eq]
  split
  · next h => exact char_toNat_ofNat (Or.inl (by omega))
  · rfl

lemma toLower_idem (c : Char) : c.toLower.toLower = c.toLower := by
  by_cases h : 65 ≤ c.toNat ∧ c.toNat ≤ 90
  · have ht : c.toLower.toNat = c.toNat + 32 := by rw [toLower_toNat, if_pos h]
    rw [toLower_eq c.toLower, if_neg (by omega)]
  · have h0 : c.toLower = c := by rw [toLower_eq, if_neg h]
    rw [h0]
    exact h0

lemma u32_le_iff (a b : UInt32) : a ≤ b ↔ a.toNat ≤ b.toNat := Iff.rfl

lemma char_isLower_iff (c : Char) : c.isLower = true ↔ 97 ≤ c.toNat ∧ c.toNat ≤ 122 := by
  unfold Char.isLower
  rw [Bool.and_eq_true, decide_eq_true_iff, decide_eq_true_iff, ge_iff_le,
    u32_le_iff, u32_le_iff]
  exact Iff.rfl

lemma char_isUpper_iff (c : Char) : c.isUpper = true ↔ 65 ≤ c.toNat ∧ c.toNat ≤ 90 := by
  unfold Char.isUpper
  rw [Bool.and_eq_true, decide_eq_true_iff, decide_eq_true_iff, ge_iff_le,
    u32_le_iff, u32_le_iff]
  exact Iff.rfl

lemma isAlpha_toLower {c : Char} (h : c.isAlpha = true) : c.toLower.isAlpha = true := by
  by_cases h65 : 65 ≤ c.toNat ∧ c.toNat ≤ 90
  · have ht : c.toLower.toNat = c.toNat + 32 := by rw [toLower_toNat, if_pos h65]
    unfold Char.isAlpha
    rw [Bool.or_eq_true]
    exact Or.inr ((char_isLower_iff _).mpr (by omega))
  · rw [toLower_eq, if_neg h65]
    exact h

lemma schemeChar_toLower {c : Char} (h : schemeChar c = true) :
    schemeChar c.toLower = true := by
  by_cases h65 : 65 ≤ c.toNat ∧ c.toNat ≤ 90
  · have ht : c.toLower.toNat = c.toNat + 32 := by rw [toLower_toNat, if_pos h65]
    unfold schemeChar Char.isAlpha
    have hl : c.toLower.isLower = true := (char_isLower_iff _).mpr (by omega)
    simp [hl]
  · rw [toLower_eq, if_neg h65]
    exact h

lemma schemeChar_ne_colon {c : Char} (h : schemeChar c = true) : c ≠ ':' := by
  intro hc
  rw [hc] at h
  exact absurd h (by decide)

lemma schemeChar_ne_semi {c : Char} (h : schemeChar c = true) : c ≠ ';' := by
  intro hc
  rw [hc] at h
  exact absurd h (by decide)

lemma rstripSlash_append (a b : Str) :
    rstripSlash (a ++ b)
      = if rstripSlash b = [] then rstripSlash a else a ++ rstripSlash b := by
  have hiff : (rstripSlash b = []) ↔ (b.reverse.dropWhile (fun c => c == '/')).isEmpty := by
    unfold rstripSlash
    rw [List.isEmpty_iff, List.reverse_eq_nil_iff]
  by_cases hb : rstripSlash b = []
  · rw [if_pos hb]
    unfold rstripSlash
    rw [List.reverse_append, List.dropWhile_append,
      if_pos (by rw [← hiff]; exact hb)]
  · rw [if_neg hb]
    unfold rstripSlash
    rw [List.reverse_append, List.dropWhile_append,
      if_neg (by rw [← hiff]; exact hb), List.reverse_append, List.reverse_reverse]

lemma rstripSlash_idem (l : Str) : rstripSlash (rstripSlash l) = rstripSlash l := by
  unfold rstripSlash
  rw [List.reverse_reverse, List.dropWhile_idempotent]

lemma mem_rstripSlash {x : Char} {l : Str} (h : x ∈ rstripSlash l) : x ∈ l := by
  unfold rstripSlash at h
  rw [List.mem_reverse] at h
  exact List.mem_reverse.mp ((List.dropWhile_sublist _).mem h)

lemma findIdx_colon (s t : Str) (hs : ∀ c ∈ s, (c == ':') = false) :
    List.findIdx? (fun c => c == ':') (s ++ ':' :: t) = some s.length := by
  induction s with
  | nil => simp
  | cons c cs ih =>
    rw [List.cons_append, List.findIdx?_cons,
      if_neg (by rw [hs c (List.mem_cons_self _ _)]; simp), List.findIdx?_succ,
      ih (fun c' hc' => hs c' (List.mem_cons_of_mem _ hc'))]
    rfl

lemma headD_append_of_ne_nil (s t : Str) (h : s ≠ []) :
    (s ++ t).headD ' ' = s.headD ' ' := by
  cases s with
  | nil => exact absurd rfl h
  | cons a s' => rfl

/-- Reconstruction: parsing `s ++ ":" ++ t` recognises the scheme `s`
again when `s` is a nonempty lowercase-stable scheme string. -/
lemma splitScheme_reconstruct (s t : Str) (hne : s ≠ [])
    (hall : ∀ c ∈ s, schemeChar c = true) (hlow : lowerStr s = s)
    (hhead : (s.headD ' ').isAlpha = true) :
    splitScheme (s ++ ':' :: t) = (s, t) := by
  have hcs : ∀ c ∈ s, (c == ':') = false := by
    intro c hc
    have := schemeChar_ne_colon (hall c hc)
    simp [this]
  have htake : (s ++ ':' :: t).take s.length = s := List.take_left s _
  have hcond : 0 < s.length ∧
      ((s ++ ':' :: t).take s.length).all schemeChar = true ∧
      ((s ++ ':' :: t).headD ' ').isAlpha = true := by
    refine ⟨?_, ?_, ?_⟩
    · cases s with
      | nil => exact absurd rfl hne
      | cons a s' => simp
    · rw [htake]
      exact List.all_eq_true.mpr hall
    · rw [headD_append_of_ne_nil s _ hne]
      exact hhead
  have hdrop : (s ++ ':' :: t).drop (s.length + 1) = t := by
    have hsp : s ++ ':' :: t = (s ++ [':']) ++ t := by simp
    rw [hsp, List.drop_left' (by simp)]
  unfold splitScheme
  rw [findIdx_colon s t hcs]
  dsimp only
  rw [if_pos hcond, htake, hlow, hdrop]

lemma stripParams_no_semi (p : Str) (h : ∀ c ∈ p, (c == ';') = false) :
    stripParams p = p := by
  have hn : ∀ q : Str, (∀ c ∈ q, (c == ';') = false) →
      q.findIdx? (fun c => c == ';') = none := by
    intro q hq
    exact List.findIdx?_eq_none_iff.mpr hq
  unfold stripParams
  split
  · simp only [hn _ (fun c hc => h c (List.mem_of_mem_drop hc))]
  · simp only [hn _ h]

lemma mem_splitScheme_snd {u : Str} {c : Char} (h : c ∈ (splitScheme u).2) : c ∈ u := by
  unfold splitScheme at h
  split at h
  · split at h
    · exact List.mem_of_mem_drop h
    · exact h
  · exact h

lemma mem_splitNetloc_fst {w : Str} {c : Char} (h : c ∈ (splitNetloc w).1) : c ∈ w := by
  unfold splitNetloc at h
  split at h
  · exact List.mem_cons_of_mem _ (List.mem_cons_of_mem _ ((List.takeWhile_sublist _).mem h))
  · simp at h

lemma mem_splitNetloc_snd {w : Str} {c : Char} (h : c ∈ (splitNetloc w).2) : c ∈ w := by
  unfold splitNetloc at h
  split at h
  · exact List.mem_cons_of_mem _ (List.mem_cons_of_mem _ ((List.dropWhile_sublist _).mem h))
  · exact h

lemma splitNetloc_fst_no_end {w : Str} {c : Char} (h : c ∈ (splitNetloc w).1) :
    netlocEnd c = false := by
  unfold splitNetloc at h
  split at h
  · have := List.mem_takeWhile_imp h
    revert this
    cases netlocEnd c <;> simp
  · simp at h

lemma mem_stripParams {p : Str} {c : Char} (h : c ∈ stripParams p) : c ∈ p := by
  unfold stripParams at h
  split at h
  · simp only [] at h
    split at h
    · exact List.mem_of_mem_take h
    · exact h
  · split at h
    · exact List.mem_of_mem_take h
    · exact h

lemma mem_parseURL_path {u : Str} {c : Char} (h : c ∈ (parseURL u).2.2) : c ∈ u := by
  have h1 : c ∈ dropQuery (dropFrag (splitNetloc (splitScheme u).2).2) := mem_stripParams h
  have h2 : c ∈ dropFrag (splitNetloc (splitScheme u).2).2 :=
    (List.takeWhile_sublist _).mem h1
  have h3 : c ∈ (splitNetloc (splitScheme u).2).2 := (List.takeWhile_sublist _).mem h2
  exact mem_splitScheme_snd (mem_splitNetloc_snd h3)

lemma mem_parseURL_netloc {u : Str} {c : Char} (h : c ∈ (parseURL u).2.1) : c ∈ u :=
  mem_splitScheme_snd (mem_splitNetloc_fst h)

lemma parseURL_path_no_frag {u : Str} {c : Char} (h : c ∈ (parseURL u).2.2) :
    (c == '#') = false ∧ (c == '?') = false := by
  have h1 : c ∈ dropQuery (dropFrag (splitNetloc (splitScheme u).2).2) := mem_stripParams h
  have hq := List.mem_takeWhile_imp h1
  have h2 : c ∈ dropFrag (splitNetloc (splitScheme u).2).2 :=
    (List.takeWhile_sublist _).mem h1
  have hf := List.mem_takeWhile_imp h2
  constructor
  · revert hf; cases c == '#' <;> simp
  · revert hq; cases c == '?' <;> simp

/-- A recognised scheme is the lowercasing of a nonempty run of scheme
characters whose first character is an ASCII letter. -/
lemma splitScheme_spec (u : Str) (h : (splitScheme u).1 ≠ []) :
    ∃ s₀ : Str, (splitScheme u).1 = lowerStr s₀ ∧ s₀ ≠ [] ∧
      (∀ c ∈ s₀, schemeChar c = true) ∧ (s₀.headD ' ').isAlpha = true := by
  unfold splitScheme at h ⊢
  cases hidx : u.findIdx? (fun c => c == ':') with
  | none =>
    rw [hidx] at h
    exact absurd rfl h
  | some i =>
    rw [hidx] at h
    dsimp only at h
    by_cases hc : 0 < i ∧ (u.take i).all schemeChar = true ∧ (u.headD ' ').isAlpha = true
    · dsimp only
      rw [if_pos hc]
      refine ⟨u.take i, rfl, ?_, List.all_eq_true.mp hc.2.1, ?_⟩
      · cases u with
        | nil => simp at hidx
        | cons a t =>
          rcases hc with ⟨hi, -, -⟩
          cases i with
          | zero => omega
          | succ j => simp [List.take_succ_cons]
      · cases u with
        | nil => simp at hidx
        | cons a t =>
          rcases hc with ⟨hi, -, hh⟩
          cases i with
          | zero => omega
          | succ j => exact hh
    · rw [if_neg hc] at h
      exact absurd rfl h

lemma lowerStr_idem (s : Str) : lowerStr (lowerStr s) = lowerStr s := by
  unfold lowerStr
  rw [List.map_map]
  exact List.map_congr_left (fun c _ => toLower_idem c)

/-- Stripping trailing slashes from `s ++ "://" ++ m`. -/
lemma rstrip_scheme_block (s m : Str) :
    rstripSlash (s ++ ([':', '/', '/'] ++ m))
      = if rstripSlash m = [] then s ++ [':']
        else s ++ ([':', '/', '/'] ++ rstripSlash m) := by
  have hsp : s ++ ([':', '/', '/'] ++ m) = (s ++ [':']) ++ (['/', '/'] ++ m) := by
    simp
  rw [hsp, rstripSlash_append (s ++ [':']) (['/', '/'] ++ m),
    rstripSlash_append ['/', '/'] m]
  have h2 : rstripSlash ['/', '/'] = [] := rfl
  have h3 : rstripSlash (s ++ [':']) = s ++ [':'] := by
    rw [rstripSlash_append s [':']]
    have : rstripSlash [':'] = [':'] := rfl
    rw [this]
    simp
  by_cases hm : rstripSlash m = [] <;> simp [hm, h2, h3]

/-- The core of idempotence: a string of the reconstructed shape
`rstrip(s ++ "://" ++ m)` re-normalises to itself when `s` is a
well-formed lowercase scheme and `m` is free of '#', '?' and ';'. -/
lemma normalize_reconstructed (s m : Str) (hsne : s ≠ [])
    (hsall : ∀ c ∈ s, schemeChar c = true) (hslow : lowerStr s = s)
    (hshd : (s.headD ' ').isAlpha = true)
    (hm : ∀ c ∈ m, c ≠ '#' ∧ c ≠ '?' ∧ c ≠ ';') :
    normalize_url (rstripSlash (s ++ ([':', '/', '/'] ++ m)))
      = rstripSlash (s ++ ([':', '/', '/'] ++ m)) := by
  rw [rstrip_scheme_block s m]
  by_cases hm0 : rstripSlash m = []
  · rw [if_pos hm0]
    have hps : splitScheme (s ++ [':']) = (s, []) := by
      have heq : s ++ [':'] = s ++ ':' :: ([] : Str) := rfl
      rw [heq]
      exact splitScheme_reconstruct s [] hsne hsall hslow hshd
    have hparse : parseURL (s ++ [':']) = (s, [], []) := by
      unfold parseURL
      simp only [hps]
      rfl
    unfold normalize_url
    simp only [hparse]
    have heq2 : s ++ [':', '/', '/'] ++ ([] : Str) ++ ([] : Str)
        = s ++ ([':', '/', '/'] ++ ([] : Str)) := by simp
    rw [heq2, rstrip_scheme_block s []]
    have hnil : rstripSlash ([] : Str) = [] := rfl
    rw [if_pos hnil]
  · rw [if_neg hm0]
    have hm'i : rstripSlash (rstripSlash m) = rstripSlash m := rstripSlash_idem m
    have hm'c : ∀ c ∈ rstripSlash m, c ≠ '#' ∧ c ≠ '?' ∧ c ≠ ';' :=
      fun c hc => hm c (mem_rstripSlash hc)
    have hps : splitScheme (s ++ ([':', '/', '/'] ++ rstripSlash m))
        = (s, '/' :: '/' :: rstripSlash m) := by
      have heq : [':', '/', '/'] ++ rstripSlash m
          = ':' :: ('/' :: '/' :: rstripSlash m) := rfl
      rw [heq]
      exact splitScheme_reconstruct s _ hsne hsall hslow hshd
    have hqsub : ∀ c ∈ (rstripSlash m).dropWhile (fun c => !netlocEnd c),
        c ∈ rstripSlash m := fun c hc => (List.dropWhile_sublist _).mem hc
    have hdropF : dropFrag ((rstripSlash m).dropWhile (fun c => !netlocEnd c))
        = (rstripSlash m).dropWhile (fun c => !netlocEnd c) := by
      unfold dropFrag
      refine List.takeWhile_eq_self_iff.mpr ?_
      intro c hc
      simp [(hm'c c (hqsub c hc)).1]
    have hdropQ : dropQuery ((rstripSlash m).dropWhile (fun c => !netlocEnd c))
        = (rstripSlash m).dropWhile (fun c => !netlocEnd c) := by
      unfold dropQuery
      refine List.takeWhile_eq_self_iff.mpr ?_
      intro c hc
      simp [(hm'c c (hqsub c hc)).2.1]
    have hstrip : stripParams ((rstripSlash m).dropWhile (fun c => !netlocEnd c))
        = (rstripSlash m).dropWhile (fun c => !netlocEnd c) := by
      refine stripParams_no_semi _ ?_
      intro c hc
      simp [(hm'c c (hqsub c hc)).2.2]
    have hparse : parseURL (s ++ ([':', '/', '/'] ++ rstripSlash m))
        = (s, (rstripSlash m).takeWhile (fun c => !netlocEnd c),
            (rstripSlash m).dropWhile (fun c => !netlocEnd c)) := by
      unfold parseURL
      simp only [hps]
      have hnl : splitNetloc ('/' :: '/' :: rstripSlash m)
          = ((rstripSlash m).takeWhile (fun c => !netlocEnd c),
             (rstripSlash m).dropWhile (fun c => !netlocEnd c)) := rfl
      simp only [hnl, hdropF, hdropQ, hstrip]
    unfold normalize_url
    simp only [hparse]
    have hsplit : (rstripSlash m).takeWhile (fun c => !netlocEnd c)
        ++ (rstripSlash m).dropWhile (fun c => !netlocEnd c) = rstripSlash m :=
      List.takeWhile_append_dropWhile _ _
    have heq3 : s ++ [':', '/', '/']
          ++ (rstripSlash m).takeWhile (fun c => !netlocEnd c)
          ++ (rstripSlash m).dropWhile (fun c => !netlocEnd c)
        = s ++ ([':', '/', '/'] ++ rstripSlash m) := by
      rw [List.append_assoc, List.append_assoc, hsplit]
    rw [heq3, rstrip_scheme_block s (rstripSlash m), hm'i, if_neg hm0]

/-- C10, amended: normalize_url is idempotent on URLs that carry an
explicit scheme (CPython recognises one: a ':' preceded by a nonempty
run of scheme characters starting with a letter) and contain no ';'
(urlparse strips ';params' from the last path segment, which can shave a
further suffix on a second pass) and no brackets (outside the embedded
model: CPython raises on unbalanced netloc brackets and normalize_url
then returns its input unchanged).  On scheme-less URLs each application
prepends "://" and idempotence fails (see the counterexample). -/
theorem c10_amended_idempotent :
    ∀ u : Str, (splitScheme u).1 ≠ [] → ';' ∉ u → '[' ∉ u → ']' ∉ u →
      normalize_url (normalize_url u) = normalize_url u := by
  intro u hsch hsemi hbr1 hbr2
  obtain ⟨s₀, hs0, hs0ne, hs0all, hs0hd⟩ := splitScheme_spec u hsch
  have hsall : ∀ c ∈ (splitScheme u).1, schemeChar c = true := by
    intro c hc
    rw [hs0] at hc
    rcases List.mem_map.mp hc with ⟨c₀, hc₀, rfl⟩
    exact schemeChar_toLower (hs0all c₀ hc₀)
  have hslow : lowerStr (splitScheme u).1 = (splitScheme u).1 := by
    rw [hs0]
    exact lowerStr_idem s₀
  have hshd : (((splitScheme u).1).headD ' ').isAlpha = true := by
    rw [hs0]
    cases s₀ with
    | nil => exact absurd rfl hs0ne
    | cons a t =>
      show (Char.toLower a).isAlpha = true
      exact isAlpha_toLower hs0hd
  have hmfacts : ∀ c ∈ (parseURL u).2.1 ++ (parseURL u).2.2,
      c ≠ '#' ∧ c ≠ '?' ∧ c ≠ ';' := by
    intro c hc
    rcases List.mem_append.mp hc with hcn | hcp
    · have hne : netlocEnd c = false := splitNetloc_fst_no_end hcn
      refine ⟨?_, ?_, ?_⟩
      · intro hq
        subst hq
        simp [netlocEnd] at hne
      · intro hq
        subst hq
        simp [netlocEnd] at hne
      · intro hq
        subst hq
        exact hsemi (mem_parseURL_netloc hcn)
    · obtain ⟨hf, hq⟩ := parseURL_path_no_frag hcp
      refine ⟨?_, ?_, ?_⟩
      · intro he
        subst he
        simp at hf
      · intro he
        subst he
        simp at hq
      · intro he
        subst he
        exact hsemi (mem_parseURL_path hcp)
  have hp1 : (parseURL u).1 = (splitScheme u).1 := by rfl
  have hn : normalize_url u
      = rstripSlash ((parseURL u).1
          ++ ([':', '/', '/'] ++ ((parseURL u).2.1 ++ (parseURL u).2.2))) := by
    simp only [normalize_url]
    simp [List.append_assoc]
  rw [hn, hp1]
  exact normalize_reconstructed _ _ hsch hsall hslow hshd hmfacts

/-- C10, counterexample to the claim as stated: on the scheme-less URL
string "a.com/x", normalize_url returns "://a.com/x", and a second
application returns "://://a.com/x" — not a fixed point. -/
theorem c10_counterexample :
    normalize_url (normalize_url "a.com/x".data) ≠ normalize_url "a.com/x".data := by
  decide

/-- C10 witness: a typical documentation URL satisfies the amended
hypotheses and is stable under a second normalize_url. -/
theorem c10_witness :
    (splitScheme "http://a.com/docs/".data).1 ≠ [] ∧
    normalize_url (normalize_url "http://a.com/docs/".data)
      = normalize_url "http://a.com/docs/".data :=
  ⟨by decide,
   c10_amended_idempotent "http://a.com/docs/".data (by decide) (by decide)
     (by decide) (by decide)⟩

/-! ### Claim C8: depth bound -/

/-- C8: in every crawl run, every PageRecord in the result mapping has
`0 ≤ depth ≤ maxDepth` (the seed enters at depth 0; children are spawned
at depth+1 only while depth < maxDepth, and the admission check rejects
depth > maxDepth). -/
theorem c8_depth_bound :
    ∀ (env : CrawlEnv) (maxDepth maxPages : Nat) (start : Str) (s : CrawlState),
      CrawlReach env maxDepth maxPages start s →
      ∀ u rec, (u, rec) ∈ s.results → 0 ≤ rec.depth ∧ rec.depth ≤ maxDepth := by
  intro env maxD maxP start s h u rec hmem
  exact ⟨Nat.zero_le _,
    ((cinv_reach env maxD maxP start s h).2.1 u rec hmem).1⟩

/-! ### Claim C9: failure semantics -/

/-- C9: a URL whose fetch fails (non-200 / network error / parse error,
modelled by `env.fetch u = none`) never contributes a result entry; every
URL admitted to fetching is in the visited set; no URL is ever fetched
twice (the admission log is duplicate-free); and completing a failing
fetch is a step that removes only that task, leaving the visited set, the
results, and every other pending task intact — the crawl continues. -/
theorem c9_failure_semantics :
    ∀ (env : CrawlEnv) (maxDepth maxPages : Nat) (start : Str) (s : CrawlState),
      CrawlReach env maxDepth maxPages start s →
      (∀ u, env.fetch u = none → ∀ rec, (u, rec) ∉ s.results) ∧
      (∀ p ∈ s.fetchLogged, p.1 ∈ s.visited) ∧
      ((s.fetchLogged.map Prod.fst).Nodup) ∧
      (∀ v r log l₁ l₂ u d, s = ⟨v, r, l₁ ++ CTask.fetching u d :: l₂, log⟩ →
        fetchOk env u = none →
        CStep env (extract_domain start) maxDepth maxPages s ⟨v, r, l₁ ++ l₂, log⟩) := by
  intro env maxD maxP start s h
  obtain ⟨hF, hR, hND, hLog, hVis, hE, hCnt⟩ := cinv_reach env maxD maxP start s h
  refine ⟨?_, fun p hp => (hLog p hp).1, hND, ?_⟩
  · intro u hf rec hmem
    obtain ⟨-, c, hh, hok⟩ := hR u rec hmem
    rw [fetchOk, hf] at hok
    cases hok
  · intro v r log l₁ l₂ u d hseq hf
    subst hseq
    exact CStep.fetchFail v r log l₁ l₂ u d hf

/-! ### A concrete minimal crawl (shared witness scenario) -/

def e0Seed : Str := "http://a.com".data

def e0Env : CrawlEnv where
  fetch := fun u => if u = e0Seed then some ("Docs here".data, "<html>page</html>".data) else none
  rawHrefs := fun _ => []
  urljoin := fun _ href => href
  titleOf := fun _ => "Docs".data

def e0Rec : PageRec := mkRec e0Env e0Seed "Docs here".data "<html>page</html>".data 0

def e0S1 : CrawlState := ⟨[e0Seed], [], [CTask.fetching e0Seed 0], [(e0Seed, 0)]⟩

def e0S2 : CrawlState := ⟨[e0Seed], [(e0Seed, e0Rec)], [], [(e0Seed, 0)]⟩

lemma e0_step1 : CStep e0Env (extract_domain e0Seed) 0 50 (crawlInit e0Seed) e0S1 :=
  CStep.visit [] [] [] [] [] e0Seed 0 (by decide) (by decide) (by simp)

lemma e0_step2 : CStep e0Env (extract_domain e0Seed) 0 50 e0S1 e0S2 :=
  CStep.fetchLeaf [e0Seed] [] [(e0Seed, 0)] [] [] e0Seed
    "Docs here".data "<html>page</html>".data 0 rfl (by decide)

lemma e0_reach : CrawlReach e0Env 0 50 e0Seed e0S2 :=
  Relation.ReflTransGen.tail
    (Relation.ReflTransGen.tail Relation.ReflTransGen.refl e0_step1) e0_step2

/-- C8 witness: the concrete one-page crawl produces a record whose depth
obeys the bound. -/
theorem c8_witness : 0 ≤ e0Rec.depth ∧ e0Rec.depth ≤ 0 :=
  c8_depth_bound e0Env 0 50 e0Seed e0S2 e0_reach e0Seed e0Rec
    (List.mem_singleton.mpr rfl)

/-- C9 witness: in the concrete crawl, a URL whose fetch fails has no
result entry, and the fetch log is duplicate-free. -/
theorem c9_witness :
    ("http://b.com".data, e0Rec) ∉ e0S2.results ∧
    (e0S2.fetchLogged.map Prod.fst).Nodup :=
  ⟨(c9_failure_semantics e0Env 0 50 e0Seed e0S2 e0_reach).1
      "http://b.com".data rfl e0Rec,
   (c9_failure_semantics e0Env 0 50 e0Seed e0S2 e0_reach).2.2.1⟩

/-! ### Claim C3: no canonicalization-equivalent duplicate fetches -/

/-- C3, amended: every discovered link is canonicalised with
normalize_url before it is enqueued, and the visited set guarantees each
exact URL string is admitted to fetching at most once; hence two fetched
URLs that are both in canonical form and canonicalise identically are the
same fetch.  The seed URL, however, is fetched as given, without
canonicalisation, so it can be canonicalization-equivalent to a fetched
link (see the counterexample). -/
theorem c3_amended_canonical_dedup :
    ∀ (env : CrawlEnv) (maxDepth maxPages : Nat) (start : Str) (s : CrawlState),
      CrawlReach env maxDepth maxPages start s →
      ((s.fetchLogged.map Prod.fst).Nodup) ∧
      (∀ p ∈ s.fetchLogged, p.1 = start ∨ ∃ a, p.1 = normalize_url a) ∧
      (∀ u v', u ∈ s.fetchLogged.map Prod.fst → v' ∈ s.fetchLogged.map Prod.fst →
        normalize_url u = u → normalize_url v' = v' →
        normalize_url u = normalize_url v' → u = v') := by
  intro env maxD maxP start s h
  obtain ⟨hF, hR, hND, hLog, hVis, hE, hCnt⟩ := cinv_reach env maxD maxP start s h
  refine ⟨hND, ?_, ?_⟩
  · intro p hp
    exact hVis p.1 (hLog p hp).1
  · intro u v' hu hv hfu hfv heq
    rw [← hfu, ← hfv]
    exact heq

def c3Seed : Str := "http://a.com/x/".data

def c3Link : Str := "http://a.com/x".data

def c3Env : CrawlEnv where
  fetch := fun u =>
    if u = c3Seed ∨ u = c3Link then some ("Some text.".data, "<a>x</a>".data) else none
  rawHrefs := fun u => if u = c3Seed then ["http://a.com/x".data] else []
  urljoin := fun _ href => href
  titleOf := fun _ => "T".data

def c3Rec0 : PageRec := mkRec c3Env c3Seed "Some text.".data "<a>x</a>".data 0

def c3Rec1 : PageRec := mkRec c3Env c3Link "Some text.".data "<a>x</a>".data 1

def c3S1 : CrawlState := ⟨[c3Seed], [], [CTask.fetching c3Seed 0], [(c3Seed, 0)]⟩

def c3S2 : CrawlState :=
  ⟨[c3Seed], [(c3Seed, c3Rec0)], [CTask.entry c3Link 1], [(c3Seed, 0)]⟩

def c3S3 : CrawlState :=
  ⟨[c3Link, c3Seed], [(c3Seed, c3Rec0)], [CTask.fetching c3Link 1],
   [(c3Seed, 0), (c3Link, 1)]⟩

def c3S4 : CrawlState :=
  ⟨[c3Link, c3Seed], [(c3Seed, c3Rec0), (c3Link, c3Rec1)], [],
   [(c3Seed, 0), (c3Link, 1)]⟩

lemma c3_step1 : CStep c3Env (extract_domain c3Seed) 1 50 (crawlInit c3Seed) c3S1 :=
  CStep.visit [] [] [] [] [] c3Seed 0 (by decide) (by decide) (by simp)

lemma c3_step2 : CStep c3Env (extract_domain c3Seed) 1 50 c3S1 c3S2 :=
  CStep.fetchSpawn [c3Seed] [] [(c3Seed, 0)] [] [] c3Seed
    "Some text.".data "<a>x</a>".data 0 [c3Link] rfl (by decide) (by decide)
    (fun x => Iff.rfl)

lemma c3_step3 : CStep c3Env (extract_domain c3Seed) 1 50 c3S2 c3S3 :=
  CStep.visit [c3Seed] [(c3Seed, c3Rec0)] [(c3Seed, 0)] [] [] c3Link 1
    (by decide) (by decide) (by decide)

lemma c3_step4 : CStep c3Env (extract_domain c3Seed) 1 50 c3S3 c3S4 :=
  CStep.fetchLeaf [c3Link, c3Seed] [(c3Seed, c3Rec0)] [(c3Seed, 0), (c3Link, 1)]
    [] [] c3Link "Some text.".data "<a>x</a>".data 1 rfl (by decide)

lemma c3_reach : CrawlReach c3Env 1 50 c3Seed c3S4 :=
  Relation.ReflTransGen.tail
    (Relation.ReflTransGen.tail
      (Relation.ReflTransGen.tail
        (Relation.ReflTransGen.tail Relation.ReflTransGen.refl c3_step1) c3_step2)
      c3_step3) c3_step4

/-- C3, counterexample to the claim as stated: the seed
"http://a.com/x/" is fetched without canonicalisation, and the page's
link "http://a.com/x" canonicalises to the same string yet is also
fetched — two canonicalization-equivalent URLs (differing only by a
trailing slash) are both in the fetched set. -/
theorem c3_counterexample :
    CrawlReach c3Env 1 50 c3Seed c3S4 ∧
    (c3Seed, 0) ∈ c3S4.fetchLogged ∧ (c3Link, 1) ∈ c3S4.fetchLogged ∧
    normalize_url c3Seed = normalize_url c3Link ∧ c3Seed ≠ c3Link :=
  ⟨c3_reach, by decide, by decide, by decide, by decide⟩

/-- C3 witness: the concrete one-page crawl has a duplicate-free fetch
log whose seed entry is the start URL. -/
theorem c3_witness :
    (e0S2.fetchLogged.map Prod.fst).Nodup ∧
    ((e0Seed, 0).1 = e0Seed ∨ ∃ a, (e0Seed, 0).1 = normalize_url a) :=
  ⟨(c3_amended_canonical_dedup e0Env 0 50 e0Seed e0S2 e0_reach).1,
   (c3_amended_canonical_dedup e0Env 0 50 e0Seed e0S2 e0_reach).2.1
     (e0Seed, 0) (by decide)⟩

/-! ### Claim C6: per-page link fan-out -/

/-- C6, amended: a single crawl step adds at most 10 new entry tasks
(`links[:10]` after the `list(set(...))` dedup), and every added entry's
URL is one of the page's discovered links; but which 10 is determined by
the set enumeration order, not the markup discovery order. -/
theorem c6_amended_fanout :
    ∀ (env : CrawlEnv) (base : Str) (maxDepth maxPages : Nat) (s s' : CrawlState),
      CStep env base maxDepth maxPages s s' →
      s'.tasks.length ≤ s.tasks.length + 9 ∧
      (∀ x d', CTask.entry x d' ∈ s'.tasks →
        CTask.entry x d' ∈ s.tasks ∨
        ∃ u pd, d' = pd + 1 ∧ CTask.fetching u pd ∈ s.tasks ∧
          x ∈ discoveredLinks env base u) := by
  intro env base maxD maxP s s' hstep
  cases hstep with
  | skip v r log l₁ l₂ u d hcond =>
    constructor
    · simp only [List.length_append, List.length_cons]
      omega
    · intro x d' hx
      exact Or.inl ((mem_middle l₁ l₂ _ _).mpr (Or.inr hx))
  | visit v r log l₁ l₂ u d hd hp hv =>
    constructor
    · simp only [List.length_append, List.length_cons]
      omega
    · intro x d' hx
      rcases (mem_middle l₁ l₂ _ _).mp hx with heq | hmem
      · cases heq
      · exact Or.inl ((mem_middle l₁ l₂ _ _).mpr (Or.inr hmem))
  | fetchFail v r log l₁ l₂ u d hf =>
    constructor
    · simp only [List.length_append, List.length_cons]
      omega
    · intro x d' hx
      exact Or.inl ((mem_middle l₁ l₂ _ _).mpr (Or.inr hx))
  | fetchLeaf v r log l₁ l₂ u c h d hf hd =>
    constructor
    · simp only [List.length_append, List.length_cons]
      omega
    · intro x d' hx
      exact Or.inl ((mem_middle l₁ l₂ _ _).mpr (Or.inr hx))
  | fetchSpawn v r log l₁ l₂ u c h d L hf hd hnd hmem =>
    constructor
    · have h1 := length_spawned v L d
      simp only [List.length_append, List.length_cons]
      omega
    · intro x d' hx
      rcases List.mem_append.mp hx with hx' | hx'
      · exact Or.inl ((mem_middle l₁ l₂ _ _).mpr (Or.inr hx'))
      · rcases mem_spawned v L d _ hx' with ⟨y, hy, hyL, -⟩
        injection hy with hy1 hy2
        subst hy1
        subst hy2
        exact Or.inr ⟨u, d, rfl, (mem_middle l₁ l₂ _ _).mpr (Or.inl rfl),
          (hmem x).mp hyL⟩

def c6Seed : Str := "http://b.com".data

def c6Links : List Str :=
  ["http://b.com/p1".data, "http://b.com/p2".data, "http://b.com/p3".data,
   "http://b.com/p4".data, "http://b.com/p5".data, "http://b.com/p6".data,
   "http://b.com/p7".data, "http://b.com/p8".data, "http://b.com/p9".data,
   "http://b.com/p10".data, "http://b.com/p11".data]

/-- One enumeration order `list(set(links))` may produce: the eleventh
discovered link first. -/
def c6Perm : List Str :=
  ["http://b.com/p11".data, "http://b.com/p1".data, "http://b.com/p2".data,
   "http://b.com/p3".data, "http://b.com/p4".data, "http://b.com/p5".data,
   "http://b.com/p6".data, "http://b.com/p7".data, "http://b.com/p8".data,
   "http://b.com/p9".data, "http://b.com/p10".data]

def c6Env : CrawlEnv where
  fetch := fun _ => some ("Some text.".data, "<a>x</a>".data)
  rawHrefs := fun u => if u = c6Seed then c6Links else []
  urljoin := fun _ href => href
  titleOf := fun _ => "T".data

def c6Rec0 : PageRec := mkRec c6Env c6Seed "Some text.".data "<a>x</a>".data 0

def c6S1 : CrawlState := ⟨[c6Seed], [], [CTask.fetching c6Seed 0], [(c6Seed, 0)]⟩

def c6S2 : CrawlState :=
  ⟨[c6Seed], [(c6Seed, c6Rec0)],
   ((c6Perm.take 10).filter (fun x => decide (x ∉ [c6Seed]))).map
     (fun x => CTask.entry x 1),
   [(c6Seed, 0)]⟩

lemma c6_discovered :
    discoveredLinks c6Env (extract_domain c6Seed) c6Seed = c6Links := by decide

lemma c6_step1 : CStep c6Env (extract_domain c6Seed) 1 50 (crawlInit c6Seed) c6S1 :=
  CStep.visit [] [] [] [] [] c6Seed 0 (by decide) (by decide) (by simp)

lemma c6_step2 : CStep c6Env (extract_domain c6Seed) 1 50 c6S1 c6S2 :=
  CStep.fetchSpawn [c6Seed] [] [(c6Seed, 0)] [] [] c6Seed
    "Some text.".data "<a>x</a>".data 0 c6Perm rfl (by decide) (by decide)
    (fun x => by
      rw [c6_discovered]
      exact (List.Perm.mem_iff (by decide)))

lemma c6_reach : CrawlReach c6Env 1 50 c6Seed c6S2 :=
  Relation.ReflTransGen.tail
    (Relation.ReflTransGen.tail Relation.ReflTransGen.refl c6_step1) c6_step2

/-- C6, counterexample to the claim as stated: the page's markup
discovers p1..p11 in that order, but `list(set(links))` may enumerate p11
first; the 10 links followed then include p11 (the 11th discovered) and
omit p10 (the 10th discovered) — a truncation of the set enumeration, not
of the discovery sequence. -/
theorem c6_counterexample :
    CrawlReach c6Env 1 50 c6Seed c6S2 ∧
    discoveredLinks c6Env (extract_domain c6Seed) c6Seed = c6Links ∧
    c6Links.indexOf "http://b.com/p11".data = 10 ∧
    c6Links.indexOf "http://b.com/p10".data = 9 ∧
    CTask.entry "http://b.com/p11".data 1 ∈ c6S2.tasks ∧
    CTask.entry "http://b.com/p10".data 1 ∉ c6S2.tasks :=
  ⟨c6_reach, c6_discovered, by decide, by decide, by decide, by decide⟩

/-- C6 witness: the concrete spawn step obeys the 10-link fan-out bound. -/
theorem c6_witness : c6S2.tasks.length ≤ c6S1.tasks.length + 9 :=
  (c6_amended_fanout c6Env (extract_domain c6Seed) 1 50 c6S1 c6S2 c6_step2).1

/-! ### Claim C7: soft page cap -/

/-- C7, amended: a URL is admitted to fetching only while the current
result count is strictly below maxPages (every logged admission records
a count < maxPages), and the final result count never exceeds the number
of admissions; but no fixed additive tolerance such as maxPages + 5
holds — all of a page's spawned children can pass the admission check
before any of them completes, so the overshoot is bounded by the number
of admitted-but-pending fetches, not by the concurrency cap (see the
counterexample: 8 results with maxPages = 2). -/
theorem c7_amended_soft_cap :
    ∀ (env : CrawlEnv) (maxDepth maxPages : Nat) (start : Str) (s : CrawlState),
      CrawlReach env maxDepth maxPages start s →
      (∀ p ∈ s.fetchLogged, p.2 < maxPages) ∧
      s.results.length + countFetch s.tasks ≤ s.fetchLogged.length := by
  intro env maxD maxP start s h
  obtain ⟨hF, hR, hND, hLog, hVis, hE, hCnt⟩ := cinv_reach env maxD maxP start s h
  exact ⟨fun p hp => (hLog p hp).2, hCnt⟩

def c7Seed : Str := "http://c.com".data

def c7p1 : Str := "http://c.com/p1".data
def c7p2 : Str := "http://c.com/p2".data
def c7p3 : Str := "http://c.com/p3".data
def c7p4 : Str := "http://c.com/p4".data
def c7p5 : Str := "http://c.com/p5".data
def c7p6 : Str := "http://c.com/p6".data
def c7p7 : Str := "http://c.com/p7".data

def c7Links : List Str := [c7p1, c7p2, c7p3, c7p4, c7p5, c7p6, c7p7]

def c7Env : CrawlEnv where
  fetch := fun _ => some ("Some text.".data, "<a>x</a>".data)
  rawHrefs := fun u => if u = c7Seed then c7Links else []
  urljoin := fun _ href => href
  titleOf := fun _ => "T".data

def c7Rec0 : PageRec := mkRec c7Env c7Seed "Some text.".data "<a>x</a>".data 0
def c7Rec1 : PageRec := mkRec c7Env c7p1 "Some text.".data "<a>x</a>".data 1
def c7Rec2 : PageRec := mkRec c7Env c7p2 "Some text.".data "<a>x</a>".data 1
def c7Rec3 : PageRec := mkRec c7Env c7p3 "Some text.".data "<a>x</a>".data 1
def c7Rec4 : PageRec := mkRec c7Env c7p4 "Some text.".data "<a>x</a>".data 1
def c7Rec5 : PageRec := mkRec c7Env c7p5 "Some text.".data "<a>x</a>".data 1
def c7Rec6 : PageRec := mkRec c7Env c7p6 "Some text.".data "<a>x</a>".data 1
def c7Rec7 : PageRec := mkRec c7Env c7p7 "Some text.".data "<a>x</a>".data 1

def c7T1 : CrawlState := ⟨[c7Seed], [], [CTask.fetching c7Seed 0], [(c7Seed, 0)]⟩

def c7T2 : CrawlState := ⟨[c7Seed], [(c7Seed, c7Rec0)], [CTask.entry c7p1 1, CTask.entry c7p2 1, CTask.entry c7p3 1, CTask.entry c7p4 1, CTask.entry c7p5 1, CTask.entry c7p6 1, CTask.entry c7p7 1], [(c7Seed, 0)]⟩

def c7T3 : CrawlState := ⟨[c7p1, c7Seed], [(c7Seed, c7Rec0)], [CTask.fetching c7p1 1, CTask.entry c7p2 1, CTask.entry c7p3 1, CTask.entry c7p4 1, CTask.entry c7p5 1, CTask.entry c7p6 1, CTask.entry c7p7 1], [(c7Seed, 0), (c7p1, 1)]⟩

def c7T4 : CrawlState := ⟨[c7p2, c7p1, c7Seed], [(c7Seed, c7Rec0)], [CTask.fetching c7p1 1, CTask.fetching c7p2 1, CTask.entry c7p3 1, CTask.entry c7p4 1, CTask.entry c7p5 1, CTask.entry c7p6 1, CTask.entry c7p7 1], [(c7Seed, 0), (c7p1, 1), (c7p2, 1)]⟩

def c7T5 : CrawlState := ⟨[c7p3, c7p2, c7p1, c7Seed], [(c7Seed, c7Rec0)], [CTask.fetching c7p1 1, CTask.fetching c7p2 1, CTask.fetching c7p3 1, CTask.entry c7p4 1, CTask.entry c7p5 1, CTask.entry c7p6 1, CTask.entry c7p7 1], [(c7Seed, 0), (c7p1, 1), (c7p2, 1), (c7p3, 1)]⟩

def c7T6 : CrawlState := ⟨[c7p4, c7p3, c7p2, c7p1, c7Seed], [(c7Seed, c7Rec0)], [CTask.fetching c7p1 1, CTask.fetching c7p2 1, CTask.fetching c7p3 1, CTask.fetching c7p4 1, CTask.entry c7p5 1, CTask.entry c7p6 1, CTask.entry c7p7 1], [(c7Seed, 0), (c7p1, 1), (c7p2, 1), (c7p3, 1), (c7p4, 1)]⟩

def c7T7 : CrawlState := ⟨[c7p5, c7p4, c7p3, c7p2, c7p1, c7Seed], [(c7Seed, c7Rec0)], [CTask.fetching c7p1 1, CTask.fetching c7p2 1, CTask.fetching c7p3 1, CTask.fetching c7p4 1, CTask.fetching c7p5 1, CTask.entry c7p6 1, CTask.entry c7p7 1], [(c7Seed, 0), (c7p1, 1), (c7p2, 1), (c7p3, 1), (c7p4, 1), (c7p5, 1)]⟩

def c7T8 : CrawlState := ⟨[c7p6, c7p5, c7p4, c7p3, c7p2, c7p1, c7Seed], [(c7Seed, c7Rec0)], [CTask.fetching c7p1 1, CTask.fetching c7p2 1, CTask.fetching c7p3 1, CTask.fetching c7p4 1, CTask.fetching c7p5 1, CTask.fetching c7p6 1, CTask.entry c7p7 1], [(c7Seed, 0), (c7p1, 1), (c7p2, 1), (c7p3, 1), (c7p4, 1), (c7p5, 1), (c7p6, 1)]⟩

def c7T9 : CrawlState := ⟨[c7p7, c7p6, c7p5, c7p4, c7p3, c7p2, c7p1, c7Seed], [(c7Seed, c7Rec0)], [CTask.fetching c7p1 1, CTask.fetching c7p2 1, CTask.fetching c7p3 1, CTask.fetching c7p4 1, CTask.fetching c7p5 1, CTask.fetching c7p6 1, CTask.fetching c7p7 1], [(c7Seed, 0), (c7p1, 1), (c7p2, 1), (c7p3, 1), (c7p4, 1), (c7p5, 1), (c7p6, 1), (c7p7, 1)]⟩

def c7T10 : CrawlState := ⟨[c7p7, c7p6, c7p5, c7p4, c7p3, c7p2, c7p1, c7Seed], [(c7Seed, c7Rec0), (c7p1, c7Rec1)], [CTask.fetching c7p2 1, CTask.fetching c7p3 1, CTask.fetching c7p4 1, CTask.fetching c7p5 1, CTask.fetching c7p6 1, CTask.fetching c7p7 1], [(c7Seed, 0), (c7p1, 1), (c7p2, 1), (c7p3, 1), (c7p4, 1), (c7p5, 1), (c7p6, 1), (c7p7, 1)]⟩

def c7T11 : CrawlState := ⟨[c7p7, c7p6, c7p5, c7p4, c7p3, c7p2, c7p1, c7Seed], [(c7Seed, c7Rec0), (c7p1, c7Rec1), (c7p2, c7Rec2)], [CTask.fetching c7p3 1, CTask.fetching c7p4 1, CTask.fetching c7p5 1, CTask.fetching c7p6 1, CTask.fetching c7p7 1], [(c7Seed, 0), (c7p1, 1), (c7p2, 1), (c7p3, 1), (c7p4, 1), (c7p5, 1), (c7p6, 1), (c7p7, 1)]⟩

def c7T12 : CrawlState := ⟨[c7p7, c7p6, c7p5, c7p4, c7p3, c7p2, c7p1, c7Seed], [(c7Seed, c7Rec0), (c7p1, c7Rec1), (c7p2, c7Rec2), (c7p3, c7Rec3)], [CTask.fetching c7p4 1, CTask.fetching c7p5 1, CTask.fetching c7p6 1, CTask.fetching c7p7 1], [(c7Seed, 0), (c7p1, 1), (c7p2, 1), (c7p3, 1), (c7p4, 1), (c7p5, 1), (c7p6, 1), (c7p7, 1)]⟩

def c7T13 : CrawlState := ⟨[c7p7, c7p6, c7p5, c7p4, c7p3, c7p2, c7p1, c7Seed], [(c7Seed, c7Rec0), (c7p1, c7Rec1), (c7p2, c7Rec2), (c7p3, c7Rec3), (c7p4, c7Rec4)], [CTask.fetching c7p5 1, CTask.fetching c7p6 1, CTask.fetching c7p7 1], [(c7Seed, 0), (c7p1, 1), (c7p2, 1), (c7p3, 1), (c7p4, 1), (c7p5, 1), (c7p6, 1), (c7p7, 1)]⟩

def c7T14 : CrawlState := ⟨[c7p7, c7p6, c7p5, c7p4, c7p3, c7p2, c7p1, c7Seed], [(c7Seed, c7Rec0), (c7p1, c7Rec1), (c7p2, c7Rec2), (c7p3, c7Rec3), (c7p4, c7Rec4), (c7p5, c7Rec5)], [CTask.fetching c7p6 1, CTask.fetching c7p7 1], [(c7Seed, 0), (c7p1, 1), (c7p2, 1), (c7p3, 1), (c7p4, 1), (c7p5, 1), (c7p6, 1), (c7p7, 1)]⟩

def c7T15 : CrawlState := ⟨[c7p7, c7p6, c7p5, c7p4, c7p3, c7p2, c7p1, c7Seed], [(c7Seed, c7Rec0), (c7p1, c7Rec1), (c7p2, c7Rec2), (c7p3, c7Rec3), (c7p4, c7Rec4), (c7p5, c7Rec5), (c7p6, c7Rec6)], [CTask.fetching c7p7 1], [(c7Seed, 0), (c7p1, 1), (c7p2, 1), (c7p3, 1), (c7p4, 1), (c7p5, 1), (c7p6, 1), (c7p7, 1)]⟩

def c7T16 : CrawlState := ⟨[c7p7, c7p6, c7p5, c7p4, c7p3, c7p2, c7p1, c7Seed], [(c7Seed, c7Rec0), (c7p1, c7Rec1), (c7p2, c7Rec2), (c7p3, c7Rec3), (c7p4, c7Rec4), (c7p5, c7Rec5), (c7p6, c7Rec6), (c7p7, c7Rec7)], [], [(c7Seed, 0), (c7p1, 1), (c7p2, 1), (c7p3, 1), (c7p4, 1), (c7p5, 1), (c7p6, 1), (c7p7, 1)]⟩

lemma c7_step1 : CStep c7Env (extract_domain c7Seed) 1 2 (crawlInit c7Seed) c7T1 :=
  CStep.visit [] [] [] [] [] c7Seed 0 (by decide) (by decide) (by simp)

lemma c7_step2 : CStep c7Env (extract_domain c7Seed) 1 2 c7T1 c7T2 :=
  CStep.fetchSpawn [c7Seed] [] [(c7Seed, 0)] [] [] c7Seed
    "Some text.".data "<a>x</a>".data 0 c7Links rfl (by decide) (by decide)
    (fun x => Iff.rfl)

lemma c7_step3 : CStep c7Env (extract_domain c7Seed) 1 2 c7T2 c7T3 :=
  CStep.visit [c7Seed] [(c7Seed, c7Rec0)] [(c7Seed, 0)]
    [] [CTask.entry c7p2 1, CTask.entry c7p3 1, CTask.entry c7p4 1, CTask.entry c7p5 1, CTask.entry c7p6 1, CTask.entry c7p7 1]
    c7p1 1 (by decide) (by decide) (by decide)

lemma c7_step4 : CStep c7Env (extract_domain c7Seed) 1 2 c7T3 c7T4 :=
  CStep.visit [c7p1, c7Seed] [(c7Seed, c7Rec0)] [(c7Seed, 0), (c7p1, 1)]
    [CTask.fetching c7p1 1] [CTask.entry c7p3 1, CTask.entry c7p4 1, CTask.entry c7p5 1, CTask.entry c7p6 1, CTask.entry c7p7 1]
    c7p2 1 (by decide) (by decide) (by decide)

lemma c7_step5 : CStep c7Env (extract_domain c7Seed) 1 2 c7T4 c7T5 :=
  CStep.visit [c7p2, c7p1, c7Seed] [(c7Seed, c7Rec0)] [(c7Seed, 0), (c7p1, 1), (c7p2, 1)]
    [CTask.fetching c7p1 1, CTask.fetching c7p2 1] [CTask.entry c7p4 1, CTask.entry c7p5 1, CTask.entry c7p6 1, CTask.entry c7p7 1]
    c7p3 1 (by decide) (by decide) (by decide)

lemma c7_step6 : CStep c7Env (extract_domain c7Seed) 1 2 c7T5 c7T6 :=
  CStep.visit [c7p3, c7p2, c7p1, c7Seed] [(c7Seed, c7Rec0)] [(c7Seed, 0), (c7p1, 1), (c7p2, 1), (c7p3, 1)]
    [CTask.fetching c7p1 1, CTask.fetching c7p2 1, CTask.fetching c7p3 1] [CTask.entry c7p5 1, CTask.entry c7p6 1, CTask.entry c7p7 1]
    c7p4 1 (by decide) (by decide) (by decide)

lemma c7_step7 : CStep c7Env (extract_domain c7Seed) 1 2 c7T6 c7T7 :=
  CStep.visit [c7p4, c7p3, c7p2, c7p1, c7Seed] [(c7Seed, c7Rec0)] [(c7Seed, 0), (c7p1, 1), (c7p2, 1), (c7p3, 1), (c7p4, 1)]
    [CTask.fetching c7p1 1, CTask.fetching c7p2 1, CTask.fetching c7p3 1, CTask.fetching c7p4 1] [CTask.entry c7p6 1, CTask.entry c7p7 1]
    c7p5 1 (by decide) (by decide) (by decide)

lemma c7_step8 : CStep c7Env (extract_domain c7Seed) 1 2 c7T7 c7T8 :=
  CStep.visit [c7p5, c7p4, c7p3, c7p2, c7p1, c7Seed] [(c7Seed, c7Rec0)] [(c7Seed, 0), (c7p1, 1), (c7p2, 1), (c7p3, 1), (c7p4, 1), (c7p5, 1)]
    [CTask.fetching c7p1 1, CTask.fetching c7p2 1, CTask.fetching c7p3 1, CTask.fetching c7p4 1, CTask.fetching c7p5 1] [CTask.entry c7p7 1]
    c7p6 1 (by decide) (by decide) (by decide)

lemma c7_step9 : CStep c7Env (extract_domain c7Seed) 1 2 c7T8 c7T9 :=
  CStep.visit [c7p6, c7p5, c7p4, c7p3, c7p2, c7p1, c7Seed] [(c7Seed, c7Rec0)] [(c7Seed, 0), (c7p1, 1), (c7p2, 1), (c7p3, 1), (c7p4, 1), (c7p5, 1), (c7p6, 1)]
    [CTask.fetching c7p1 1, CTask.fetching c7p2 1, CTask.fetching c7p3 1, CTask.fetching c7p4 1, CTask.fetching c7p5 1, CTask.fetching c7p6 1] []
    c7p7 1 (by decide) (by decide) (by decide)

lemma c7_step10 : CStep c7Env (extract_domain c7Seed) 1 2 c7T9 c7T10 :=
  CStep.fetchLeaf [c7p7, c7p6, c7p5, c7p4, c7p3, c7p2, c7p1, c7Seed] [(c7Seed, c7Rec0)] [(c7Seed, 0), (c7p1, 1), (c7p2, 1), (c7p3, 1), (c7p4, 1), (c7p5, 1), (c7p6, 1), (c7p7, 1)]
    [] [CTask.fetching c7p2 1, CTask.fetching c7p3 1, CTask.fetching c7p4 1, CTask.fetching c7p5 1, CTask.fetching c7p6 1, CTask.fetching c7p7 1]
    c7p1 "Some text.".data "<a>x</a>".data 1 rfl (by decide)

lemma c7_step11 : CStep c7Env (extract_domain c7Seed) 1 2 c7T10 c7T11 :=
  CStep.fetchLeaf [c7p7, c7p6, c7p5, c7p4, c7p3, c7p2, c7p1, c7Seed] [(c7Seed, c7Rec0), (c7p1, c7Rec1)] [(c7Seed, 0), (c7p1, 1), (c7p2, 1), (c7p3, 1), (c7p4, 1), (c7p5, 1), (c7p6, 1), (c7p7, 1)]
    [] [CTask.fetching c7p3 1, CTask.fetching c7p4 1, CTask.fetching c7p5 1, CTask.fetching c7p6 1, CTask.fetching c7p7 1]
    c7p2 "Some text.".data "<a>x</a>".data 1 rfl (by decide)

lemma c7_step12 : CStep c7Env (extract_domain c7Seed) 1 2 c7T11 c7T12 :=
  CStep.fetchLeaf [c7p7, c7p6, c7p5, c7p4, c7p3, c7p2, c7p1, c7Seed] [(c7Seed, c7Rec0), (c7p1, c7Rec1), (c7p2, c7Rec2)] [(c7Seed, 0), (c7p1, 1), (c7p2, 1), (c7p3, 1), (c7p4, 1), (c7p5, 1), (c7p6, 1), (c7p7, 1)]
    [] [CTask.fetching c7p4 1, CTask.fetching c7p5 1, CTask.fetching c7p6 1, CTask.fetching c7p7 1]
    c7p3 "Some text.".data "<a>x</a>".data 1 rfl (by decide)

lemma c7_step13 : CStep c7Env (extract_domain c7Seed) 1 2 c7T12 c7T13 :=
  CStep.fetchLeaf [c7p7, c7p6, c7p5, c7p4, c7p3, c7p2, c7p1, c7Seed] [(c7Seed, c7Rec0), (c7p1, c7Rec1), (c7p2, c7Rec2), (c7p3, c7Rec3)] [(c7Seed, 0), (c7p1, 1), (c7p2, 1), (c7p3, 1), (c7p4, 1), (c7p5, 1), (c7p6, 1), (c7p7, 1)]
    [] [CTask.fetching c7p5 1, CTask.fetching c7p6 1, CTask.fetching c7p7 1]
    c7p4 "Some text.".data "<a>x</a>".data 1 rfl (by decide)

lemma c7_step14 : CStep c7Env (extract_domain c7Seed) 1 2 c7T13 c7T14 :=
  CStep.fetchLeaf [c7p7, c7p6, c7p5, c7p4, c7p3, c7p2, c7p1, c7Seed] [(c7Seed, c7Rec0), (c7p1, c7Rec1), (c7p2, c7Rec2), (c7p3, c7Rec3), (c7p4, c7Rec4)] [(c7Seed, 0), (c7p1, 1), (c7p2, 1), (c7p3, 1), (c7p4, 1), (c7p5, 1), (c7p6, 1), (c7p7, 1)]
    [] [CTask.fetching c7p6 1, CTask.fetching c7p7 1]
    c7p5 "Some text.".data "<a>x</a>".data 1 rfl (by decide)

lemma c7_step15 : CStep c7Env (extract_domain c7Seed) 1 2 c7T14 c7T15 :=
  CStep.fetchLeaf [c7p7, c7p6, c7p5, c7p4, c7p3, c7p2, c7p1, c7Seed] [(c7Seed, c7Rec0), (c7p1, c7Rec1), (c7p2, c7Rec2), (c7p3, c7Rec3), (c7p4, c7Rec4), (c7p5, c7Rec5)] [(c7Seed, 0), (c7p1, 1), (c7p2, 1), (c7p3, 1), (c7p4, 1), (c7p5, 1), (c7p6, 1), (c7p7, 1)]
    [] [CTask.fetching c7p7 1]
    c7p6 "Some text.".data "<a>x</a>".data 1 rfl (by decide)

lemma c7_step16 : CStep c7Env (extract_domain c7Seed) 1 2 c7T15 c7T16 :=
  CStep.fetchLeaf [c7p7, c7p6, c7p5, c7p4, c7p3, c7p2, c7p1, c7Seed] [(c7Seed, c7Rec0), (c7p1, c7Rec1), (c7p2, c7Rec2), (c7p3, c7Rec3), (c7p4, c7Rec4), (c7p5, c7Rec5), (c7p6, c7Rec6)] [(c7Seed, 0), (c7p1, 1), (c7p2, 1), (c7p3, 1), (c7p4, 1), (c7p5, 1), (c7p6, 1), (c7p7, 1)]
    [] []
    c7p7 "Some text.".data "<a>x</a>".data 1 rfl (by decide)

lemma c7_reach : CrawlReach c7Env 1 2 c7Seed c7T16 :=
  Relation.ReflTransGen.tail (Relation.ReflTransGen.tail (Relation.ReflTransGen.tail (Relation.ReflTransGen.tail (Relation.ReflTransGen.tail (Relation.ReflTransGen.tail (Relation.ReflTransGen.tail (Relation.ReflTransGen.tail (Relation.ReflTransGen.tail (Relation.ReflTransGen.tail (Relation.ReflTransGen.tail (Relation.ReflTransGen.tail (Relation.ReflTransGen.tail (Relation.ReflTransGen.tail (Relation.ReflTransGen.tail (Relation.ReflTransGen.tail Relation.ReflTransGen.refl c7_step1) c7_step2) c7_step3) c7_step4) c7_step5) c7_step6) c7_step7) c7_step8) c7_step9) c7_step10) c7_step11) c7_step12) c7_step13) c7_step14) c7_step15) c7_step16

/-- C7, counterexample to the claim as stated: with maxPages = 2 and a
seed page carrying 7 links, every child passes the admission check while
the result count is still 1, so the finished crawl holds 8 results —
exceeding maxPages + 5 = 7.  The concurrency cap of 5 never blocks
admissions (tasks queue on the semaphore after being admitted), so it
does not bound the overshoot. -/
theorem c7_counterexample :
    CrawlReach c7Env 1 2 c7Seed c7T16 ∧ c7T16.tasks = [] ∧
    c7T16.results.length = 8 ∧ 2 + 5 < 8 :=
  ⟨c7_reach, rfl, rfl, by decide⟩

/-- C7 witness: in the concrete one-page crawl every admission happened
below the cap and the count is bounded by the number of admissions. -/
theorem c7_witness :
    ((e0Seed, 0).2 < 50) ∧
    e0S2.results.length + countFetch e0S2.tasks ≤ e0S2.fetchLogged.length :=
  ⟨(c7_amended_soft_cap e0Env 0 50 e0Seed e0S2 e0_reach).1 (e0Seed, 0) (by decide),
   (c7_amended_soft_cap e0Env 0 50 e0Seed e0S2 e0_reach).2⟩
